import Mathlib

set_option maxRecDepth 20000

/-
  Shallow embedding of the p6psgmmlc MML compiler (src/mml_compiler.c,
  src/mml_compiler.h, src/main.c).  C machine integers are modelled as
  Int (for C `int` values, EOF = -1) and Nat (for sizes and bytes), with
  explicit reductions `% 256` / `% 65536` where the C code converts to
  uint8_t / uint16_t.  The output buffer is modelled as the list of bytes
  written so far (`out`); `out_len` of the C struct is `out.length`, and
  the capacity guard compares against `out_cap` exactly as `ensure_space`
  does.  Character loops in the C code advance the scan position on every
  iteration; they are embedded as fuel-indexed recursions whose entry
  points pass `c.len + 1 - c.pos` (or, for the recursive length resolver,
  `3 * (c.len - c.pos) + 6`) units of fuel, which is more than the number
  of iterations the C loop can perform.  Diagnostic message strings
  (error_msg / snprintf) are not modelled; the error kind and error
  column are.
-/

namespace P6MML

/-- MML_Error enum from mml_compiler.h. -/
inductive MML_Error where
  | MML_OK
  | MML_ERR_SYNTAX
  | MML_ERR_FUNC_RANGE
  | MML_ERR_OCTAVE
  | MML_ERR_OUT_OF_NEST
  | MML_ERR_CLOSE_NEST
  | MML_ERR_DUP_EXIT
  | MML_ERR_RETURN_IN_NEST
  | MML_ERR_NOTE_OVERFLOW
  | MML_ERR_INTERNAL
deriving DecidableEq, Repr

/-- MML_LoopState from mml_compiler.h ('[' / ':' / ']' loop bookkeeping). -/
structure MML_LoopState where
  loop_start : Nat
  exit_mark : Nat
  saved_l_len96 : Int
  saved_lp_len96 : Int
  saved_octave : Int
  saved_octave_last : Int
deriving DecidableEq, Repr, Inhabited

/-- LOOP_NOEXIT sentinel for exit_mark. -/
def LOOP_NOEXIT : Nat := 0

/-- MML_MAX_NEST. -/
def MML_MAX_NEST : Nat := 4

/-- NOERROR sentinel for error_col. -/
def NOERROR : Int := -1

/-- MML_Compiler from mml_compiler.h.  `out` is the list of bytes written
so far (C `out[0 .. out_len-1]`); `out_cap` is the buffer capacity. -/
structure MMLC where
  src : List Char
  pos : Nat
  len : Nat
  line : Int
  col : Int
  out : List Nat
  out_cap : Nat
  nest_depth : Nat
  l_len96 : Int
  lp_len96 : Int
  octave : Int
  octave_last : Int
  key_shift : Int
  loops : List MML_LoopState
  error : MML_Error
  error_col : Int
deriving DecidableEq, Repr

/-- C cast to uint8_t (two's-complement wrap of an int). -/
def u8 (v : Int) : Nat := (v % 256).toNat

/-- C cast to uint16_t. -/
def u16 (v : Int) : Nat := (v % 65536).toNat

/-- ctype toupper for the ASCII range, on C int character codes. -/
def toupperI (ch : Int) : Int :=
  if 97 ≤ ch ∧ ch ≤ 122 then ch - 32 else ch

/-- ctype isdigit on C int character codes (false at EOF = -1). -/
def isdigitI (ch : Int) : Prop := 48 ≤ ch ∧ ch ≤ 57

instance (ch : Int) : Decidable (isdigitI ch) := by
  unfold isdigitI; infer_instance

/-- mml_channel_init: memset 0 then the listed field initialisations.
`out_size` is the capacity handed in by the caller. -/
def mml_channel_init (out_size : Nat) : MMLC :=
  { src := []
    pos := 0
    len := 0
    line := 0
    col := 0
    out := []
    out_cap := out_size
    nest_depth := 0
    l_len96 := 24
    lp_len96 := 192
    octave := 4
    octave_last := 4
    key_shift := 0
    loops := List.replicate 4 ⟨0, LOOP_NOEXIT, 0, 0, 0, 0⟩
    error := .MML_OK
    error_col := 0 }

/-- peek: look at the current character, -1 at end of line. -/
def peek (c : MMLC) : Int :=
  if c.pos ≥ c.len then -1
  else ((c.src.getD c.pos default).toNat : Int)

/-- get: consume one character; the column advances except on a newline. -/
def get (c : MMLC) : Int × MMLC :=
  if c.pos ≥ c.len then (-1, c)
  else
    let ch := ((c.src.getD c.pos default).toNat : Int)
    let c := { c with pos := c.pos + 1 }
    if ch = 10 then (ch, c)
    else (ch, { c with col := c.col + 1 })

/-- Loop body of skip_space, fuel-indexed. -/
def skipSpaceGo : Nat → MMLC → MMLC
  | 0, c => c
  | fuel + 1, c =>
    let ch := peek c
    if ch = 32 ∨ ch = 9 ∨ ch = 13 then skipSpaceGo fuel (get c).2
    else c

/-- skip_space: discard spaces, tabs and CR. -/
def skip_space (c : MMLC) : MMLC := skipSpaceGo (c.len + 1 - c.pos) c

/-- Digit loop of parse_unsigned; v is the C `long` accumulator clamped at
INT_MAX on every step. -/
def parseUnsGo : Nat → MMLC → Int → Int × MMLC
  | 0, c, v => (v, c)
  | fuel + 1, c, v =>
    let ch := peek c
    if isdigitI ch then
      let c := (get c).2
      let v := v * 10 + (ch - 48)
      let v := if v > 2147483647 then 2147483647 else v
      parseUnsGo fuel c v
    else (v, c)

/-- parse_unsigned: returns (found, value, state). -/
def parse_unsigned (c : MMLC) : Bool × Int × MMLC :=
  let c := skip_space c
  let ch := peek c
  if ¬ isdigitI ch then (false, 0, c)
  else
    let (v, c) := parseUnsGo (c.len + 1 - c.pos) c 0
    (true, v, c)

/-- parse_signed: optional leading '+'/'-' then parse_unsigned. -/
def parse_signed (c : MMLC) : Bool × Int × MMLC :=
  let c := skip_space c
  let ch := peek c
  let (sign, c) :=
    if ch = 43 ∨ ch = 45 then ((if ch = 45 then (-1 : Int) else 1), (get c).2)
    else (1, c)
  match parse_unsigned c with
  | (false, _, c) => (false, 0, c)
  | (true, v, c) => (true, sign * v, c)

/-- sign_byte: bit7 = sign, bit6-0 = magnitude. -/
def sign_byte (v : Int) : Int :=
  if v ≥ 0 then v else Int.ofNat (128 ||| (-v).toNat)

/-- set_error: first error wins; error_col is filled from the current
column only when still NOERROR. -/
def set_error (c : MMLC) (e : MML_Error) : MMLC :=
  if c.error = .MML_OK then
    let c := { c with error := e }
    if c.error_col = NOERROR then { c with error_col := c.col }
    else c
  else c

/-- ensure_space: capacity guard; overflow records the column and raises
MML_ERR_INTERNAL. -/
def ensure_space (c : MMLC) (need : Nat) : Bool × MMLC :=
  if c.out.length + need > c.out_cap then
    let c := { c with error_col := c.col }
    (false, set_error c .MML_ERR_INTERNAL)
  else (true, c)

/-- emit_byte. -/
def emit_byte (c : MMLC) (v : Nat) : MMLC :=
  match ensure_space c 1 with
  | (false, c) => c
  | (true, c) => { c with out := c.out ++ [v] }

/-- emit_word_le (LSB first). -/
def emit_word_le (c : MMLC) (v : Nat) : MMLC :=
  match ensure_space c 2 with
  | (false, c) => c
  | (true, c) => { c with out := c.out ++ [v % 256, v / 256] }

/-- notename_to_tonenum: C=1, D=3, E=5, F=6, G=8, A=10, B=12 (on
uppercased character codes). -/
def notename_to_tonenum (name : Int) : Int :=
  if name = 67 then 1          -- C
  else if name = 68 then 3     -- D
  else if name = 69 then 5     -- E
  else if name = 70 then 6     -- F
  else if name = 71 then 8     -- G
  else if name = 65 then 10    -- A
  else if name = 66 then 12    -- B
  else -1

def PARA_F_MINUS : Nat := 0x80
def PARA_F_PLUS : Nat := 0x40
def PARA_F_PERCENT : Nat := 0x20
def PARA_F_TIE : Nat := 0x10
def PARA_F_NOVALUE : Nat := 0x01

/-- Digit loop of parse_para; value is the C uint16_t accumulator:
the update wraps mod 65536 on assignment and is then clamped when it
is at least UINT16_MAX. -/
def paraDigitsGo : Nat → MMLC → Nat → Nat × MMLC
  | 0, c, value => (value, c)
  | fuel + 1, c, value =>
    let ch := peek c
    if ¬ isdigitI ch then (value, c)
    else
      let digit := (ch - 48).toNat
      let value := (value * 10 + digit) % 65536
      let value := if value ≥ 65535 then 65535 else value
      paraDigitsGo fuel (get c).2 value

/-- The '%' prefix stage of parse_para. -/
def paraPercent (c : MMLC) : Nat × MMLC :=
  if peek c = 37 then (PARA_F_PERCENT, skip_space (get c).2)    -- '%'
  else (0, c)

/-- The sign prefix stage of parse_para. -/
def paraSign (flag : Nat) (c : MMLC) : Nat × MMLC :=
  if peek c = 45 then (flag ||| PARA_F_MINUS, skip_space (get c).2)   -- '-'
  else if peek c = 43 then
    (flag ||| PARA_F_PLUS, skip_space (get c).2)                      -- '+'
  else (flag, c)

/-- parse_para: optional '%', optional sign, digit run.
Returns (flag, value, state). -/
def parse_para (c : MMLC) : Nat × Nat × MMLC :=
  let c := skip_space c
  match paraPercent c with
  | (flag, c) =>
    match paraSign flag c with
    | (flag, c) =>
      if ¬ isdigitI (peek c) then (flag ||| PARA_F_NOVALUE, 0, c)
      else
        let (value, c) := paraDigitsGo (c.len + 1 - c.pos) c 0
        (flag, value, c)

/-- Dot-counting loop of parse_length_96 (skip_space then '.'). -/
def dotsGo : Nat → MMLC → Nat → Nat × MMLC
  | 0, c, dots => (dots, c)
  | fuel + 1, c, dots =>
    let c := skip_space c
    if peek c = 46 then dotsGo fuel (get c).2 (dots + 1)    -- '.'
    else (dots, c)

/-- Loop body of apply_dots: each dot halves `half` and adds it, failing
when the current half is odd; error_col advances per applied dot. -/
def applyDotsGo : Nat → MMLC → Int → Int → Bool × Int × MMLC
  | 0, c, len96, _ => (true, len96, c)
  | dots + 1, c, len96, half =>
    if half % 2 ≠ 0 then (false, len96, c)
    else
      let half := half / 2
      let len96 := len96 + half
      let c := { c with error_col := c.error_col + 1 }
      applyDotsGo dots c len96 half

/-- apply_dots: dot augmentation plus the final [1, 32767] range check. -/
def apply_dots (c : MMLC) (base_len96 : Int) (dots : Nat) : Bool × Int × MMLC :=
  match applyDotsGo dots c base_len96 base_len96 with
  | (false, _, c) => (false, 0, c)
  | (true, len96, c) =>
    if len96 ≤ 0 ∨ len96 > 32767 then (false, 0, c)
    else (true, len96, c)

/-- Dot stage of parse_length_96 (the code between base-length
selection and the caret loop): count dots, then apply_dots with the
FUNC_RANGE error on failure. -/
def parseLen96Dots (c : MMLC) (base0 : Int) : Bool × Int × MMLC :=
  let c := { c with error_col := c.col }
  match dotsGo (c.len + 1 - c.pos) c 0 with
  | (dots, c) =>
    if dots > 0 then
      let c := { c with error_col := c.error_col + 1 }
      match apply_dots c base0 dots with
      | (false, _, c) => (false, 0, set_error c .MML_ERR_FUNC_RANGE)
      | (true, base, c) => (true, base, c)
    else (true, base0, c)

/-- Tail of one parse_length_96 component: the dot-stage result is
inspected, then the caret loop continuation `k` runs on the dotted base
with error_col reset to NOERROR, and the PARA flag of this component is
re-attached. -/
def parseLen96Tail (r : Bool × Int × MMLC) (flag : Nat)
    (k : Int → MMLC → Bool × Int × Nat × MMLC) : Bool × Int × Nat × MMLC :=
  match r with
  | (false, _, c) => (false, 0, flag, c)
  | (true, base, c) =>
    let c := { c with error_col := NOERROR }
    match k base c with
    | (ok, total, _, c) =>
      if ok then (true, total, flag, c) else (false, 0, flag, c)

/-- parse_length_96, fuel-indexed.  The C function and its '^' loop are
mutually recursive through the input; to keep the recursion structural
(and hence kernel-reducible) both entry points live in one function:
`none` is a full parse (PARA prefix, base length selection, dots, then
the caret loop), `some base` is the caret loop with accumulator `base`.
Returns (ok, len96, flag, state); the flag component of a caret-loop
call is unused (0). -/
def parseLen96Aux : Nat → Option Int → MMLC → Bool × Int × Nat × MMLC
  | 0, _, c => (false, 0, 0, c)
  | fuel + 1, none, c =>
    (match parse_para c with
    | (flag, value, c) =>
      let c := { c with error_col := c.col }
      if flag &&& PARA_F_PERCENT ≠ 0 then
        if flag &&& PARA_F_NOVALUE ≠ 0 then
          (false, 0, flag, set_error c .MML_ERR_FUNC_RANGE)
        else if value < 1 ∨ value > 255 then
          (false, 0, flag, set_error c .MML_ERR_FUNC_RANGE)
        else
          parseLen96Tail (parseLen96Dots c (Int.ofNat value)) flag
            (fun b c => parseLen96Aux fuel (some b) c)
      else if flag &&& PARA_F_NOVALUE ≠ 0 then
        parseLen96Tail (parseLen96Dots c c.l_len96) flag
          (fun b c => parseLen96Aux fuel (some b) c)
      else if value = 1 ∨ value = 2 ∨ value = 3 ∨ value = 4 ∨ value = 6 ∨
              value = 8 ∨ value = 12 ∨ value = 16 ∨ value = 24 ∨
              value = 32 ∨ value = 48 ∨ value = 96 then
        parseLen96Tail (parseLen96Dots c (Int.ofNat (96 / value))) flag
          (fun b c => parseLen96Aux fuel (some b) c)
      else
        (false, 0, flag, set_error c .MML_ERR_FUNC_RANGE))
  | fuel + 1, some base, c =>
    let c := skip_space c
    if peek c ≠ 94 then (true, base, 0, c)     -- not a caret: loop ends
    else
      let c := (get c).2
      match parseLen96Aux fuel none c with
      | (false, _, _, c) => (false, 0, 0, c)
      | (true, add, _, c) => parseLen96Aux fuel (some (base + add)) c

/-- parse_length_96 entry point; the fuel dominates the loop and
recursion depth, every unit of which consumes at least one character. -/
def parse_length_96 (c : MMLC) : Bool × Int × Nat × MMLC :=
  parseLen96Aux (3 * (c.len - c.pos) + 6) none c

/-- make_note_header: bit6 = tie, bits 5-4 select the length encoding
(L match, L+ match, 1-byte, 2-byte, tested in that order), low nibble is
the tone cast to uint8_t and masked. -/
def make_note_header (c : MMLC) (tone len96 : Int) (tie : Bool) : Nat :=
  let header : Nat := 0
  let header := header ||| ((if tie then 1 else 0) <<< 6)
  let header := header |||
    ((if len96 = c.l_len96 then 0
      else if len96 = c.lp_len96 then 1
      else if len96 ≤ 255 then 2
      else 3) <<< 4)
  let header := header ||| (u8 tone &&& 0x0F)
  header

/-- set_octave: range-checked update of the logical octave. -/
def set_octave (c : MMLC) (n : Int) : MMLC :=
  if n < 1 ∨ n > 8 then set_error c .MML_ERR_OCTAVE
  else { c with octave := n }

/-- emit_octave: range-checked emission of 0x80 + n; octave_last is
updated afterwards (even when the byte write itself hit the capacity
guard, as in the C code). -/
def emit_octave (c : MMLC) (n : Int) : MMLC :=
  if n < 1 ∨ n > 8 then set_error c .MML_ERR_OCTAVE
  else
    let c := emit_byte c (u8 (128 + n))
    { c with octave_last := n }

/-- Emission tail of compile_note (mml_compiler.c lines 692-707): lazy
octave byte, header, and the length byte(s) when the length matches
neither default. -/
def emit_note (c : MMLC) (octave tone len96 : Int) (tie : Bool) : MMLC :=
  let c := if c.octave_last ≠ octave then emit_octave c octave else c
  let onpu := make_note_header c tone len96 tie
  let c := emit_byte c onpu
  if len96 ≠ c.l_len96 ∧ len96 ≠ c.lp_len96 then
    if len96 ≤ 255 then emit_byte c (u8 len96)
    else emit_word_le c (u16 len96)
  else c

/-- Length-and-tie tail of compile_note (lines 666-707): length spec,
rejection of '+'/'-' flags, optional '&' tie, then emission. -/
def compile_note_len (c : MMLC) (tone octave : Int) : MMLC :=
  let c := { c with error_col := NOERROR }
  match parse_length_96 c with
  | (false, _, _, c) => c
  | (true, len96, flag, c) =>
    if flag &&& PARA_F_PLUS ≠ 0 then set_error c .MML_ERR_FUNC_RANGE
    else if flag &&& PARA_F_MINUS ≠ 0 then set_error c .MML_ERR_FUNC_RANGE
    else
      let c := skip_space c
      let (tie, c) := if peek c = 38 then (true, (get c).2) else (false, c)  -- '&'
      emit_note c octave tone len96 tie

/-- compile_note: note or rest.  For 'R' the tone is 0 and the pitch
block (accidentals, clipping, key shift) is skipped entirely. -/
def compile_note (c : MMLC) (note : Int) : MMLC :=
  let ch := toupperI note
  let octave := c.octave
  let c := { c with error_col := c.col }
  if ch = 82 then                        -- 'R'
    compile_note_len c 0 octave
  else
    let tone := notename_to_tonenum ch
    if tone < 0 then set_error c .MML_ERR_SYNTAX
    else
      let c := skip_space c
      let ch2 := peek c
      let (tone, c) :=
        if ch2 = 35 ∨ ch2 = 43 then (tone + 1, (get c).2)   -- '#' or '+'
        else if ch2 = 45 then (tone - 1, (get c).2)         -- '-'
        else (tone, c)
      let tone := if tone > 12 then 12 else tone
      let tone := if tone < 1 then 1 else tone
      if c.key_shift ≠ 0 then
        let tone := tone + c.key_shift
        let (tone, octave) :=
          if tone > 12 then (tone - 12, octave + 1)
          else if tone < 1 then (tone + 12, octave - 1)
          else (tone, octave)
        if octave < 1 ∨ octave > 8 then set_error c .MML_ERR_NOTE_OVERFLOW
        else compile_note_len c tone octave
      else compile_note_len c tone octave

/-- Discard loop used by the 'X' and ';' command cases: peek-based, so
the terminating newline (if any) is left unconsumed. -/
def discardGo : Nat → MMLC → MMLC
  | 0, c => c
  | fuel + 1, c =>
    let ch := peek c
    if ch ≥ 0 ∧ ch ≠ 10 then discardGo fuel (get c).2
    else c

/-- compile_command: single-character command dispatch. -/
def compile_command (c : MMLC) (command : Int) : MMLC :=
  let ch := toupperI command
  if ch = 79 then            -- 'O': octave 1-8
    match parse_unsigned c with
    | (false, _, c) => set_error c .MML_ERR_FUNC_RANGE
    | (true, v, c) => set_octave c v
  else if ch = 62 then       -- '>': octave up, default 1
    match parse_unsigned c with
    | (false, _, c) =>
      let c := { c with error_col := c.col - 1 }
      set_octave c (c.octave + 1)
    | (true, v, c) => set_octave c (c.octave + v)
  else if ch = 60 then       -- '<': octave down, default 1
    match parse_unsigned c with
    | (false, _, c) =>
      let c := { c with error_col := c.col - 1 }
      set_octave c (c.octave - 1)
    | (true, v, c) => set_octave c (c.octave - v)
  else if ch = 86 then       -- 'V': volume 0-15
    match parse_unsigned c with
    | (false, _, c) => set_error c .MML_ERR_FUNC_RANGE
    | (true, v, c) =>
      if v < 0 ∨ v > 15 then set_error c .MML_ERR_FUNC_RANGE
      else emit_byte c (u8 (0x90 + v))
  else if ch = 40 then       -- '(': volume up 1-15, default 1
    match parse_unsigned c with
    | (found, v0, c) =>
      let v := if found then v0 else 1
      if v < 1 ∨ v > 15 then set_error c .MML_ERR_FUNC_RANGE
      else emit_byte c (u8 (0xB0 + v))
  else if ch = 41 then       -- ')': volume down 1-15, default 1
    match parse_unsigned c with
    | (found, v0, c) =>
      let v := if found then v0 else 1
      if v < 1 ∨ v > 15 then set_error c .MML_ERR_FUNC_RANGE
      else emit_byte c (u8 (0xA0 + v))
  else if ch = 73 then       -- 'I': user variable 0-255
    match parse_unsigned c with
    | (false, _, c) => set_error c .MML_ERR_FUNC_RANGE
    | (true, v, c) =>
      if v < 0 ∨ v > 255 then set_error c .MML_ERR_FUNC_RANGE
      else emit_byte (emit_byte c 0xF4) (u8 v)
  else if ch = 74 then       -- 'J': replay from here; illegal in a nest
    if c.nest_depth > 0 then
      let c := set_error c .MML_ERR_RETURN_IN_NEST
      { c with nest_depth := 0 }
    else emit_byte c 0xFE
  else if ch = 76 then       -- 'L': default length (L+ when '+' flag)
    match parse_length_96 c with
    | (false, _, _, c) => c
    | (true, len96, flag, c) =>
      if flag &&& PARA_F_NOVALUE ≠ 0 then set_error c .MML_ERR_FUNC_RANGE
      else if flag &&& PARA_F_MINUS ≠ 0 then set_error c .MML_ERR_FUNC_RANGE
      else if len96 < 0 ∨ len96 > 255 then set_error c .MML_ERR_FUNC_RANGE
      else if flag &&& PARA_F_PLUS = 0 then
        let c := { c with l_len96 := len96 }
        emit_byte (emit_byte c 0xF9) (u8 len96)
      else
        let c := { c with lp_len96 := len96 }
        emit_byte (emit_byte c 0xF7) (u8 len96)
  else if ch = 77 then       -- 'M': vibrato (M%n sets only parameter 4)
    let c := skip_space c
    if peek c = 37 then      -- '%'
      let c := (get c).2
      match parse_signed c with
      | (false, _, c) => set_error c .MML_ERR_FUNC_RANGE
      | (true, v, c) =>
        if v < -127 ∨ v > 127 then set_error c .MML_ERR_FUNC_RANGE
        else emit_byte (emit_byte c 0xFD) (u8 (sign_byte v))
    else
      match parse_unsigned c with
      | (false, _, c) => set_error c .MML_ERR_FUNC_RANGE
      | (true, n1, c) =>
        let c := skip_space c
        if peek c ≠ 44 then set_error c .MML_ERR_FUNC_RANGE
        else
          let c := (get c).2
          match parse_unsigned c with
          | (false, _, c) => set_error c .MML_ERR_FUNC_RANGE
          | (true, n2, c) =>
            let c := skip_space c
            if peek c ≠ 44 then set_error c .MML_ERR_FUNC_RANGE
            else
              let c := (get c).2
              match parse_unsigned c with
              | (false, _, c) => set_error c .MML_ERR_FUNC_RANGE
              | (true, n3, c) =>
                let c := skip_space c
                if peek c ≠ 44 then set_error c .MML_ERR_FUNC_RANGE
                else
                  let c := (get c).2
                  match parse_signed c with
                  | (false, _, c) => set_error c .MML_ERR_FUNC_RANGE
                  | (true, n4, c) =>
                    let n4 := sign_byte n4
                    let c := emit_byte c 0xF5
                    let c := emit_byte c (u8 n1)
                    let c := emit_byte c (u8 n2)
                    let c := emit_byte c (u8 n3)
                    emit_byte c (u8 n4)
  else if ch = 78 then       -- 'N': vibrato toggle
    emit_byte c 0xF6
  else if ch = 80 then       -- 'P': noise mode 1-3
    match parse_unsigned c with
    | (false, _, c) => set_error c .MML_ERR_FUNC_RANGE
    | (true, v, c) =>
      if v = 1 then emit_byte c 0xED
      else if v = 2 then emit_byte c 0xEE
      else if v = 3 then emit_byte c 0xEF
      else set_error c .MML_ERR_FUNC_RANGE
  else if ch = 81 then       -- 'Q': gate time 0-255
    match parse_unsigned c with
    | (false, _, c) => set_error c .MML_ERR_FUNC_RANGE
    | (true, v, c) =>
      if v < 0 ∨ v > 255 then set_error c .MML_ERR_FUNC_RANGE
      else emit_byte (emit_byte c 0xFA) (u8 v)
  else if ch = 83 then       -- 'S': software envelope
    match parse_signed c with
    | (false, _, c) => set_error c .MML_ERR_FUNC_RANGE
    | (true, n1, c) =>
      let c := skip_space c
      if peek c ≠ 44 then set_error c .MML_ERR_FUNC_RANGE
      else
        let c := (get c).2
        match parse_unsigned c with
        | (false, _, c) => set_error c .MML_ERR_FUNC_RANGE
        | (true, n2, c) =>
          let c := skip_space c
          if peek c ≠ 44 then set_error c .MML_ERR_FUNC_RANGE
          else
            let c := (get c).2
            match parse_signed c with
            | (false, _, c) => set_error c .MML_ERR_FUNC_RANGE
            | (true, n3, c) =>
              let c := skip_space c
              if peek c ≠ 44 then set_error c .MML_ERR_FUNC_RANGE
              else
                let c := (get c).2
                match parse_signed c with
                | (false, _, c) => set_error c .MML_ERR_FUNC_RANGE
                | (true, n4, c) =>
                  let c := skip_space c
                  if peek c ≠ 44 then set_error c .MML_ERR_FUNC_RANGE
                  else
                    let c := (get c).2
                    match parse_signed c with
                    | (false, _, c) => set_error c .MML_ERR_FUNC_RANGE
                    | (true, n5, c) =>
                      let n5 := sign_byte n5
                      let c := emit_byte c 0xEA
                      let c := emit_byte c (u8 n1)
                      if n1 ≠ 0 then
                        let c := emit_byte c (u8 n2)
                        let c := emit_byte c (u8 n3)
                        let c := emit_byte c (u8 n4)
                        emit_byte c (u8 n5)
                      else c
  else if ch = 84 then       -- 'T': tempo n1 (1-255), n2 (0-255)
    match parse_unsigned c with
    | (false, _, c) => set_error c .MML_ERR_FUNC_RANGE
    | (true, n1, c) =>
      if n1 < 1 ∨ n1 > 255 then set_error c .MML_ERR_FUNC_RANGE
      else
        let c := skip_space c
        if peek c ≠ 44 then set_error c .MML_ERR_FUNC_RANGE
        else
          let c := (get c).2
          match parse_unsigned c with
          | (false, _, c) => set_error c .MML_ERR_FUNC_RANGE
          | (true, n2, c) =>
            if n2 < 0 ∨ n2 > 255 then set_error c .MML_ERR_FUNC_RANGE
            else
              let c := emit_byte c 0xF8
              emit_byte (emit_byte c (u8 n1)) (u8 n2)
  else if ch = 85 then       -- 'U': detune, U%n absolute / U+n U-n relative
    let c := skip_space c
    let nxt := peek c
    if nxt = 37 then         -- '%'
      let c := (get c).2
      match parse_signed c with
      | (false, _, c) => set_error c .MML_ERR_FUNC_RANGE
      | (true, v, c) =>
        if v < -127 ∨ v > 127 then set_error c .MML_ERR_FUNC_RANGE
        else emit_byte (emit_byte c 0xFB) (u8 (sign_byte v))
    else if nxt = 43 ∨ nxt = 45 then
      match parse_signed c with
      | (false, _, c) => set_error c .MML_ERR_FUNC_RANGE
      | (true, v, c) =>
        if v < -127 ∨ v > 127 then set_error c .MML_ERR_FUNC_RANGE
        else emit_byte (emit_byte c 0xFC) (u8 v)
    else set_error c .MML_ERR_FUNC_RANGE
  else if ch = 87 then       -- 'W': noise frequency
    let c := skip_space c
    let nxt := peek c
    if nxt = 43 ∨ nxt = 45 then
      match parse_signed c with
      | (false, _, c) => set_error c .MML_ERR_FUNC_RANGE
      | (true, v, c) =>
        if v < -31 ∨ v > 31 then set_error c .MML_ERR_FUNC_RANGE
        else emit_byte (emit_byte c 0xEC) (u8 v)
    else
      match parse_unsigned c with
      | (false, _, c) => set_error c .MML_ERR_FUNC_RANGE
      | (true, v, c) =>
        if v < 0 ∨ v > 31 then set_error c .MML_ERR_FUNC_RANGE
        else emit_byte (emit_byte c 0xEB) (u8 v)
  else if ch = 88 then       -- 'X': stop compiling; illegal in a nest
    if c.nest_depth > 0 then
      let c := set_error c .MML_ERR_RETURN_IN_NEST
      { c with nest_depth := 0 }
    else
      let c := emit_byte c 0xE9
      discardGo (c.len + 1 - c.pos) c
  else if ch = 95 then       -- '_': key shift -12..12
    match parse_signed c with
    | (false, _, c) => set_error c .MML_ERR_FUNC_RANGE
    | (true, v, c) =>
      if v < -12 ∨ v > 12 then set_error c .MML_ERR_FUNC_RANGE
      else { c with key_shift := v }
  else if ch = 91 then       -- '[': open a loop
    if c.nest_depth ≥ MML_MAX_NEST then
      let c := set_error c .MML_ERR_FUNC_RANGE
      { c with nest_depth := 0 }
    else
      let c := emit_byte c 0xF0
      let c := emit_byte c 0x00
      let ls : MML_LoopState :=
        { loop_start := c.out.length
          exit_mark := LOOP_NOEXIT
          saved_l_len96 := 0
          saved_lp_len96 := 0
          saved_octave := 0
          saved_octave_last := 0 }
      { c with loops := c.loops.set c.nest_depth ls,
               nest_depth := c.nest_depth + 1 }
  else if ch = 93 then       -- ']': close a loop, backpatch count and ':'
    if c.nest_depth = 0 then set_error c .MML_ERR_OUT_OF_NEST
    else
      match parse_unsigned c with
      | (false, _, c) => set_error c .MML_ERR_FUNC_RANGE
      | (true, count, c) =>
        if count < 2 ∨ count > 255 then set_error c .MML_ERR_FUNC_RANGE
        else
          let ls := c.loops.getD (c.nest_depth - 1) default
          let nestnum_pos := ls.loop_start - 1
          let c := { c with out := c.out.set nestnum_pos (u8 count) }
          let jump_pos : Int := Int.ofNat c.out.length
          let offset : Int := Int.ofNat ls.loop_start - (jump_pos + 3)
          let c :=
            if -256 ≤ offset ∧ offset ≤ -1 then
              let offset := offset + 1
              emit_byte (emit_byte c 0xF1) (u8 offset)
            else
              emit_word_le (emit_byte c 0xF2) (u16 offset)
          let c :=
            if ls.exit_mark ≠ LOOP_NOEXIT then
              let jp2 : Int := Int.ofNat c.out.length
              let colon_pos := ls.exit_mark - 3
              let ex16 := u16 (jp2 - (Int.ofNat colon_pos + 3))
              { c with out := (c.out.set (colon_pos + 1) (ex16 % 256)).set
                                (colon_pos + 2) (ex16 / 256) }
            else c
          let c := { c with nest_depth := c.nest_depth - 1 }
          let (c, ls) :=
            if ls.saved_l_len96 ≠ 0 then
              ({ c with l_len96 := ls.saved_l_len96 },
               { ls with saved_l_len96 := 0 })
            else (c, ls)
          let (c, ls) :=
            if ls.saved_lp_len96 ≠ 0 then
              ({ c with lp_len96 := ls.saved_lp_len96 },
               { ls with saved_lp_len96 := 0 })
            else (c, ls)
          let (c, ls) :=
            if ls.saved_octave ≠ 0 then
              ({ c with octave := ls.saved_octave,
                        octave_last := ls.saved_octave_last },
               { ls with saved_octave := 0, saved_octave_last := 0 })
            else (c, ls)
          { c with loops := c.loops.set c.nest_depth ls }
  else if ch = 58 then       -- ':': loop break point
    if c.nest_depth = 0 then
      let c := set_error c .MML_ERR_OUT_OF_NEST
      { c with nest_depth := 0 }
    else
      let ls := c.loops.getD (c.nest_depth - 1) default
      if ls.exit_mark ≠ LOOP_NOEXIT then
        let c := set_error c .MML_ERR_DUP_EXIT
        { c with nest_depth := 0 }
      else
        let c := emit_byte c 0xF3
        let c := emit_word_le c 0x0000
        let ls :=
          { ls with exit_mark := c.out.length
                    saved_l_len96 := c.l_len96
                    saved_lp_len96 := c.lp_len96
                    saved_octave := Int.ofNat (u8 c.octave)
                    saved_octave_last := Int.ofNat (u8 c.octave_last) }
        { c with loops := c.loops.set (c.nest_depth - 1) ls }
  else if ch = 59 then       -- ';': comment, discard the rest of the line
    discardGo (c.len + 1 - c.pos) c
  else
    set_error c .MML_ERR_SYNTAX

/-- Comment loop of compile_statement: get-based, so it also consumes
the terminating newline. -/
def commentGo : Nat → MMLC → MMLC
  | 0, c => c
  | fuel + 1, c =>
    match get c with
    | (ch, c) => if ch ≥ 0 ∧ ch ≠ 10 then commentGo fuel c else c

/-- compile_statement: skip whitespace, then dispatch one statement to
the note handler ('A'-'G', 'R') or the command handler. -/
def compile_statement (c : MMLC) : MMLC :=
  let c := skip_space c
  let ch := peek c
  if ch < 0 then c
  else if ch = 59 then commentGo (c.len + 1 - c.pos) c   -- ';'
  else if ch = 10 then (get c).2
  else
    match get c with
    | (ch, c) =>
      let up := toupperI ch
      if up = 65 ∨ up = 66 ∨ up = 67 ∨ up = 68 ∨ up = 69 ∨ up = 70 ∨
         up = 71 ∨ up = 82 then
        compile_note c up
      else compile_command c up

/-- Statement loop of mml_compile_line: while input remains and no error
has been recorded.  Every iteration consumes at least one character, so
`len + 1` units of fuel dominate the loop. -/
def compileLineGo : Nat → MMLC → MMLC
  | 0, c => c
  | fuel + 1, c =>
    if c.pos < c.len ∧ c.error = .MML_OK then
      compileLineGo fuel (compile_statement c)
    else c

/-- mml_compile_line: install the line, unconditionally reset the error
state, then compile statements until the line ends or an error stops
the loop. -/
def mml_compile_line (c : MMLC) (src : List Char) (line_no : Int) :
    MML_Error × MMLC :=
  let c := { c with src := src, len := src.length, pos := 0,
                    line := line_no, col := 1,
                    error := .MML_OK, error_col := NOERROR }
  let c := compileLineGo (src.length + 1) c
  (c.error, c)

/-- mml_finish_channel: nesting check, then the 0xFF end mark; the C
code then unconditionally stores MML_OK into the error field and
returns MML_OK. -/
def mml_finish_channel (c : MMLC) : MML_Error × MMLC :=
  if c.nest_depth ≠ 0 then
    let c := set_error c .MML_ERR_CLOSE_NEST
    (c.error, c)
  else
    let c := emit_byte c 0xFF
    let c := { c with error := .MML_OK }
    (.MML_OK, c)

/-- put_word_le from main.c: store a uint16_t little-endian at a buffer
offset. -/
def put_word_le (buf : List Nat) (off : Nat) (v : Nat) : List Nat :=
  (buf.set off (v % 256)).set (off + 1) (v / 256)

/-- memcpy of a byte list into a buffer at an offset. -/
def copy_bytes (buf : List Nat) (off : Nat) (data : List Nat) : List Nat :=
  data.enum.foldl (fun b p => b.set (off + p.1) p.2) buf

/-- Object-file assembly step of main.c (lines 210-232).  `junk` models
the contents of the freshly malloc'ed output buffer, which main never
initialises; `base` is the -b base address.  Channel start offsets are
the uint16_t fields of psgch[]. -/
def assemble_object (junk : Nat → Nat) (base : Nat)
    (out1 out2 out3 : List Nat) : List Nat :=
  let off1 : Nat := 8
  let off2 : Nat := (off1 + out1.length) % 65536
  let off3 : Nat := (off2 + out2.length) % 65536
  let totallen : Nat := off3 + out3.length
  let buf := (List.range totallen).map junk
  let buf := put_word_le buf 0 ((base + off1) % 65536)
  let buf := copy_bytes buf off1 out1
  let buf := put_word_le buf 2 ((base + off2) % 65536)
  let buf := copy_bytes buf off2 out2
  let buf := put_word_le buf 4 ((base + off3) % 65536)
  let buf := copy_bytes buf off3 out3
  buf

/-! Concrete states and inputs used by the theorems below. -/

/-- A channel initialised with a comfortably large output buffer. -/
def ch1k : MMLC := mml_channel_init 1024

/-- A channel state positioned at the start of the given input, as
mml_compile_line sets it up before the statement loop. -/
def mkst (s : List Char) : MMLC :=
  { ch1k with src := s, len := s.length, pos := 0, col := 1 }

/-- C1: with nest_depth = 0 but a full output buffer (capacity 0 here),
mml_finish_channel still returns MML_OK, yet no 0xFF sentinel was
appended: emit_byte raised MML_ERR_INTERNAL, and the assignment
`c->error = MML_OK` that follows wipes that error before returning.
The output stays empty, so the INTERNAL overflow is silently lost,
contradicting the claim that overflow must be signalled. -/
theorem c1_finish_ok_but_sentinel_dropped :
    (mml_finish_channel (mml_channel_init 0)).1 = .MML_OK ∧
    (mml_finish_channel (mml_channel_init 0)).2.out = [] ∧
    (mml_finish_channel (mml_channel_init 0)).2.error = .MML_OK := by
  refine ⟨rfl, rfl, rfl⟩

/-- C2 counterexample: the digit run 65536 denotes a number greater than
65535, so the claim demands the saturated value 65535; parse_para
instead returns 0, because the uint16_t accumulator wraps modulo 65536
before the clamp is tested. -/
theorem c2_para_65536_wraps_to_zero :
    (parse_para (mkst ('6' :: ['5', '5', '3', '6']))).2.1 = 0 ∧
    (0 : Nat) ≠ 65535 := by
  refine ⟨rfl, by decide⟩

set_option maxHeartbeats 2000000 in
/-- C3 counterexample: with the default length set to 255 ticks (as the
statement `L%255` does), a length specification of 129 consecutive
carets is accepted by parse_length_96 with total 130 * 255 = 33150
ticks, outside [1, 32767]; compiling `L%255C^^^…^` end to end likewise
succeeds (MML_OK) and emits the 2-byte length 33150 = 0x817E. -/
theorem c3_caret_total_exceeds_32767 :
    (parse_length_96 { mkst (List.replicate 129 '^') with l_len96 := 255 }).1
      = true ∧
    (parse_length_96 { mkst (List.replicate 129 '^') with l_len96 := 255 }).2.1
      = 33150 ∧
    (32767 : Int) < 33150 ∧
    (mml_compile_line ch1k
      ("L%255C".toList ++ List.replicate 129 '^') 1).1 = .MML_OK := by
  refine ⟨by decide, by decide, by decide, by decide⟩

/-- C4 counterexample: compiling `L3.` succeeds with MML_OK rather than
failing with FUNC_RANGE: the base of L3 is 96 / 3 = 32 ticks, which is
even, so the dot is legal and yields 48 ticks (bytes F9 30). -/
theorem c4_L3_dot_compiles_ok :
    (mml_compile_line ch1k ('L' :: ['3', '.']) 1).1 = .MML_OK ∧
    (mml_compile_line ch1k ('L' :: ['3', '.']) 1).2.l_len96 = 48 ∧
    (mml_compile_line ch1k ('L' :: ['3', '.']) 1).2.out = [0xF9, 48] := by
  refine ⟨rfl, rfl, rfl⟩

/-- C4 amended: a dot is rejected with FUNC_RANGE when the accumulated
half is odd in ticks; `L%3.` (base 3 ticks, odd) is such a case, while
`L3.` (base 32 ticks) compiles fine as shown by the counterexample. -/
theorem c4_L_percent3_dot_func_range :
    (mml_compile_line ch1k ('L' :: ['%', '3', '.']) 1).1
      = .MML_ERR_FUNC_RANGE := by
  rfl

/-- C5: from the initial channel state, `[ c d ]3` followed by channel
finish produces exactly F0 03 01 03 F1 FC FF: the count byte at
loop_start - 1 is backpatched to 3, and the back-jump offset
2 - (4 + 3) = -5 lies in [-256, -1], so the one-byte form F1 carries
offset + 1 = -4 = 0xFC. -/
theorem c5_loop_bytes :
    (mml_compile_line ch1k ('[' :: " c d ]3".toList) 1).1 = .MML_OK ∧
    (mml_finish_channel
        (mml_compile_line ch1k ('[' :: " c d ]3".toList) 1).2).1
      = .MML_OK ∧
    (mml_finish_channel
        (mml_compile_line ch1k ('[' :: " c d ]3".toList) 1).2).2.out
      = [0xF0, 0x03, 0x01, 0x03, 0xF1, 0xFC, 0xFF] := by
  refine ⟨rfl, rfl, rfl⟩

/-- C6: from the initial channel state, `c&d` followed by channel finish
produces exactly 41 03 FF: the tie bit (bit 6) sits on the first note of
the tied pair (0x41 = bit6 or tone 1) and the second note has no tie
(0x03). -/
theorem c6_tie_bytes :
    (mml_compile_line ch1k ('c' :: ['&', 'd']) 1).1 = .MML_OK ∧
    (mml_finish_channel
        (mml_compile_line ch1k ('c' :: ['&', 'd']) 1).2).2.out
      = [0x41, 0x03, 0xFF] := by
  refine ⟨rfl, rfl⟩

/-- Channel state after compiling a line consisting of the lone illegal
character Z, which records a SYNTAX error. -/
def c7_after_bad_line : MMLC := (mml_compile_line ch1k ('Z' :: []) 1).2

/-- C7 counterexample: the recorded SYNTAX error is not sticky across
lines.  A subsequent mml_compile_line call on the same channel clears
the pending error unconditionally, returns MML_OK and compiles the new
line's note normally (the byte 0x01 is appended), contradicting the
claim that the error is only reset when no error is pending and that
later statements stay no-ops. -/
theorem c7_error_cleared_by_next_line :
    c7_after_bad_line.error = .MML_ERR_SYNTAX ∧
    (mml_compile_line c7_after_bad_line ('c' :: []) 2).1 = .MML_OK ∧
    (mml_compile_line c7_after_bad_line ('c' :: []) 2).2.error = .MML_OK ∧
    (mml_compile_line c7_after_bad_line ('c' :: []) 2).2.out = [0x01] := by
  refine ⟨rfl, rfl, rfl, rfl⟩

/-- C9: evaluation of the object assembly at a failing input.  main
mallocs the output buffer and never writes offsets 6 and 7, so those
two bytes hold whatever the allocator returned (modelled by `junk`).
With base 0 and three one-byte channels (each just FF), the three
little-endian start words 8, 9, 10 are correct, but the bytes at
offsets 6 and 7 are the junk value 0xAA, not zero. -/
theorem c9_header_pad_bytes_uninitialised :
    assemble_object (fun _ => 0xAA) 0 [0xFF] [0xFF] [0xFF]
      = [8, 0, 9, 0, 10, 0, 0xAA, 0xAA, 0xFF, 0xFF, 0xFF] ∧
    (0xAA : Nat) ≠ 0 := by
  refine ⟨rfl, by decide⟩

/-- C7 amended: mml_compile_line resets the channel error state
unconditionally at the start of every line, so its result is completely
independent of whatever error (and error column) was pending; errors
are sticky only within one line, where the first error stops the
statement loop (compiling `Zc` records SYNTAX at the `Z` and the later
`c` emits nothing). -/
theorem c7_line_reset_unconditional :
    (∀ (c : MMLC) (e : MML_Error) (ecol : Int) (src : List Char) (ln : Int),
       mml_compile_line { c with error := e, error_col := ecol } src ln
         = mml_compile_line c src ln) ∧
    (mml_compile_line ch1k ('Z' :: ['c']) 1).1 = .MML_ERR_SYNTAX ∧
    (mml_compile_line ch1k ('Z' :: ['c']) 1).2.out = [] := by
  refine ⟨fun c e ecol src ln => rfl, rfl, rfl⟩
/-- make_note_header reads only the two default-length fields of the
channel state. -/
lemma make_note_header_only_lengths (c c' : MMLC) (tone len96 : Int)
    (tie : Bool) (h1 : c'.l_len96 = c.l_len96)
    (h2 : c'.lp_len96 = c.lp_len96) :
    make_note_header c' tone len96 tie = make_note_header c tone len96 tie := by
  unfold make_note_header
  rw [h1, h2]

/-- Field decomposition of the note header byte: low nibble is the
tone, bits 5-4 are the length-encoding selector in priority order, and
bit 6 is the tie flag. -/
lemma make_note_header_fields (c : MMLC) (tone len96 : Int) (tie : Bool)
    (h0 : 0 ≤ tone) (h12 : tone ≤ 12) :
    make_note_header c tone len96 tie % 16 = tone.toNat ∧
    make_note_header c tone len96 tie / 16 % 4 =
      (if len96 = c.l_len96 then 0
       else if len96 = c.lp_len96 then 1
       else if len96 ≤ 255 then 2 else 3) ∧
    make_note_header c tone len96 tie / 64 % 2 = (if tie then 1 else 0) := by
  simp only [make_note_header]
  rcases tie <;> split_ifs <;> interval_cases tone <;> decide
set_option maxHeartbeats 1600000 in
/-- Emission behaviour of the compile_note tail: optional octave byte,
header byte, then no / one / two length bytes according to whether the
length matches a default or fits one byte. -/
lemma emit_note_out (c : MMLC) (octave tone len96 : Int) (tie : Bool)
    (he : c.error = .MML_OK) (h1 : 1 ≤ octave) (h8 : octave ≤ 8)
    (hcap : c.out.length + 4 ≤ c.out_cap)
    (hl1 : 1 ≤ len96) (hl2 : len96 ≤ 65535) :
    (emit_note c octave tone len96 tie).out =
      c.out ++
      (if c.octave_last = octave then [] else [(128 + octave).toNat]) ++
      [make_note_header c tone len96 tie] ++
      (if len96 = c.l_len96 ∨ len96 = c.lp_len96 then []
       else if len96 ≤ 255 then [len96.toNat]
       else [len96.toNat % 256, len96.toNat / 256]) ∧
    (emit_note c octave tone len96 tie).error = .MML_OK := by
  have hu8oct : u8 (128 + octave) = (128 + octave).toNat := by
    unfold u8
    rw [Int.emod_eq_of_lt (by omega) (by omega)]
  have hu8len : len96 ≤ 255 → u8 len96 = len96.toNat := by
    intro h
    unfold u8
    rw [Int.emod_eq_of_lt (by omega) (by omega)]
  have hu16len : u16 len96 = len96.toNat := by
    unfold u16
    rw [Int.emod_eq_of_lt (by omega) (by omega)]
  by_cases hoc : c.octave_last = octave
  · simp only [emit_note, hoc, ne_eq, not_true_eq_false, if_false,
      emit_byte, emit_word_le, ensure_space, if_true]
    split_ifs with hg1 hmatch hle hg2 hg3 <;>
      simp_all [List.length_append, make_note_header_only_lengths,
        not_or] <;> omega
  · simp only [emit_note, hoc, ne_eq, not_false_eq_true, if_true,
      emit_octave, emit_byte, emit_word_le, ensure_space]
    split_ifs <;>
      simp_all [List.length_append, make_note_header, not_or, hu8oct] <;>
      omega

/-- C8: for every note or rest emitted with resolved length len96, the
header byte's low nibble is the tone (0 rest, 1..12 = C..B), bits 5-4
are 00 / 01 / 10 / 11 according to len96 = l_len96, len96 = lp_len96,
len96 ≤ 255, or otherwise, tested in exactly that priority order, and
the emission appends no length byte in the 00/01 cases, one length byte
in the 10 case and two little-endian length bytes in the 11 case. -/
theorem c8_note_header_invariant (c : MMLC) (octave tone len96 : Int)
    (tie : Bool) (he : c.error = .MML_OK)
    (h1 : 1 ≤ octave) (h8 : octave ≤ 8)
    (hcap : c.out.length + 4 ≤ c.out_cap)
    (ht0 : 0 ≤ tone) (ht12 : tone ≤ 12)
    (hl1 : 1 ≤ len96) (hl2 : len96 ≤ 65535) :
    make_note_header c tone len96 tie % 16 = tone.toNat ∧
    make_note_header c tone len96 tie / 16 % 4 =
      (if len96 = c.l_len96 then 0
       else if len96 = c.lp_len96 then 1
       else if len96 ≤ 255 then 2 else 3) ∧
    make_note_header c tone len96 tie / 64 % 2 = (if tie then 1 else 0) ∧
    (emit_note c octave tone len96 tie).out =
      c.out ++
      (if c.octave_last = octave then [] else [(128 + octave).toNat]) ++
      [make_note_header c tone len96 tie] ++
      (if len96 = c.l_len96 ∨ len96 = c.lp_len96 then []
       else if len96 ≤ 255 then [len96.toNat]
       else [len96.toNat % 256, len96.toNat / 256]) ∧
    (emit_note c octave tone len96 tie).error = .MML_OK := by
  obtain ⟨ha, hb, hc⟩ := make_note_header_fields c tone len96 tie ht0 ht12
  obtain ⟨hd, hee⟩ :=
    emit_note_out c octave tone len96 tie he h1 h8 hcap hl1 hl2
  exact ⟨ha, hb, hc, hd, hee⟩

/-- Witness for C8 at a concrete input: tone 5 with length 100 from the
fresh channel (l_len96 = 24, lp_len96 = 192, octave_last = 4). -/
theorem c8_note_header_invariant_witness :
    make_note_header ch1k 5 100 false % 16 = (5 : Int).toNat ∧
    (emit_note ch1k 4 5 100 false).error = .MML_OK := by
  have h := c8_note_header_invariant ch1k 4 5 100 false rfl (by decide)
    (by decide) (by decide) (by decide) (by decide) (by decide) (by decide)
  exact ⟨h.1, h.2.2.2.2⟩
/-- Decimal value of a digit run; this follows the spec wording ("the
decimal value of the digits"), to be compared against parse_para. -/
def decimal_value (ds : List Char) : Nat :=
  ds.foldl (fun a d => a * 10 + (d.toNat - 48)) 0

/-- One iteration of the parse_para digit loop on the value
accumulator: wrap mod 65536, then clamp at 65535. -/
def para_step (v : Nat) (d : Char) : Nat :=
  let w := (v * 10 + (d.toNat - 48)) % 65536
  if w ≥ 65535 then 65535 else w

/-- The parse_para digit loop folds para_step over the pending digit
run. -/
lemma paraDigitsGo_foldl :
    ∀ (ds pre : List Char) (c : MMLC) (v fuel : Nat),
      c.src = pre ++ ds → c.pos = pre.length → c.len = c.src.length →
      (∀ d ∈ ds, 48 ≤ d.toNat ∧ d.toNat ≤ 57) →
      ds.length + 1 ≤ fuel →
      (paraDigitsGo fuel c v).1 = ds.foldl para_step v
  | [], pre, c, v, fuel, hsrc, hpos, hlen, _, hfuel => by
    obtain ⟨f, rfl⟩ : ∃ f, fuel = f + 1 :=
      ⟨fuel - 1, by omega⟩
    have hend : c.pos ≥ c.len := by
      rw [hpos, hlen, hsrc]
      simp
    simp [paraDigitsGo, peek, hend, isdigitI]
  | d :: tl, pre, c, v, fuel, hsrc, hpos, hlen, hds, hfuel => by
    obtain ⟨f, rfl⟩ : ∃ f, fuel = f + 1 := ⟨fuel - 1, by omega⟩
    have hd : 48 ≤ d.toNat ∧ d.toNat ≤ 57 := hds d (by simp)
    have hlt : c.pos < c.len := by
      rw [hpos, hlen, hsrc]
      simp
    have hgetD : c.src.getD c.pos default = d := by
      rw [hsrc, hpos, List.getD_append_right _ _ _ _ le_rfl]
      simp
    have hpeek : peek c = (d.toNat : Int) := by
      unfold peek
      rw [if_neg (by omega), hgetD]
    have hdig : isdigitI (peek c) := by
      rw [hpeek]
      unfold isdigitI
      omega
    have hget : (get c).2 = { c with pos := c.pos + 1, col := c.col + 1 } := by
      unfold get
      rw [if_neg (by omega)]
      have hne10 : ¬ (((c.src.getD c.pos default).toNat : Int) = 10) := by
        rw [hgetD]
        omega
      simp only [hne10, if_false]
    have hstep :
        paraDigitsGo (f + 1) c v
          = paraDigitsGo f (get c).2 (para_step v d) := by
      rw [paraDigitsGo]
      rw [if_neg (by simpa using hdig)]
      have : ((peek c - 48).toNat) = d.toNat - 48 := by
        rw [hpeek]; omega
      rw [this]
      rfl
    rw [hstep, hget]
    have := paraDigitsGo_foldl tl (pre ++ [d])
      { c with pos := c.pos + 1, col := c.col + 1 } (para_step v d) f
      (by simp [hsrc]) (by simp [hpos]) (by simpa using hlen)
      (fun x hx => hds x (by simp [hx])) (by simp at hfuel ⊢; omega)
    rw [this]
    rfl

/-- Accumulator monotonicity of the exact decimal fold. -/
lemma le_decimal_foldl :
    ∀ (ds : List Char) (v : Nat),
      v ≤ ds.foldl (fun a d => a * 10 + (d.toNat - 48)) v
  | [], v => le_rfl
  | d :: tl, v => by
    have h := le_decimal_foldl tl (v * 10 + (d.toNat - 48))
    simp only [List.foldl_cons]
    omega

/-- As long as the exact decimal value stays at or below 65535, the
wrap-and-clamp fold of parse_para computes it exactly. -/
lemma foldl_para_step_exact :
    ∀ (ds : List Char) (v : Nat),
      ds.foldl (fun a d => a * 10 + (d.toNat - 48)) v ≤ 65535 →
      ds.foldl para_step v = ds.foldl (fun a d => a * 10 + (d.toNat - 48)) v
  | [], v, _ => rfl
  | d :: tl, v, hb => by
    have hmono := le_decimal_foldl tl (v * 10 + (d.toNat - 48))
    simp only [List.foldl_cons] at hb ⊢
    have hsmall : v * 10 + (d.toNat - 48) ≤ 65535 := le_trans hmono hb
    have hstep : para_step v d = v * 10 + (d.toNat - 48) := by
      simp only [para_step]
      rw [Nat.mod_eq_of_lt (by omega)]
      split_ifs with h
      · omega
      · rfl
    rw [hstep]
    exact foldl_para_step_exact tl (v * 10 + (d.toNat - 48)) hb
/-- peek below the end of line. -/
lemma peek_of_lt (c : MMLC) (h : c.pos < c.len) :
    peek c = ((c.src.getD c.pos default).toNat : Int) := by
  unfold peek
  rw [if_neg (by omega)]

/-- peek at or past the end of line. -/
lemma peek_of_ge (c : MMLC) (h : c.len ≤ c.pos) :
    peek c = -1 := by
  unfold peek
  rw [if_pos (by omega)]

/-- skip_space does nothing when the current character is not
whitespace (including at end of line). -/
lemma skip_space_of_not_space (c : MMLC)
    (h : ¬ (peek c = 32 ∨ peek c = 9 ∨ peek c = 13)) :
    skip_space c = c := by
  unfold skip_space
  cases hf : c.len + 1 - c.pos with
  | zero => rfl
  | succ f =>
    rw [skipSpaceGo]
    simp only [if_neg h]
/-- parse_para at a state whose current character is a digit: no flags,
and the value comes from the digit loop. -/
lemma parse_para_digit_first (c : MMLC) (h : isdigitI (peek c)) :
    parse_para c
      = (0, (paraDigitsGo (c.len + 1 - c.pos) c 0).1,
         (paraDigitsGo (c.len + 1 - c.pos) c 0).2) := by
  have hss : skip_space c = c :=
    skip_space_of_not_space c (by unfold isdigitI at h; omega)
  have h37 : ¬ (peek c = 37) := by unfold isdigitI at h; omega
  have h45 : ¬ (peek c = 45) := by unfold isdigitI at h; omega
  have h43 : ¬ (peek c = 43) := by unfold isdigitI at h; omega
  have hpc : paraPercent c = (0, c) := by
    unfold paraPercent
    rw [if_neg h37]
  have hsg : paraSign 0 c = (0, c) := by
    unfold paraSign
    rw [if_neg h45, if_neg h43]
  simp only [parse_para, hss, hpc, hsg, h, not_true_eq_false, if_false]

/-- C2 amended: for a digit run whose decimal value is at most 65535,
parse_para returns exactly that value (and no flags): saturation as the
claim states it only holds on this side of 65535, while beyond it the
uint16_t accumulator wraps, as the counterexample shows. -/
theorem c2_para_exact_up_to_65535 (ds : List Char) (hne : ds ≠ [])
    (hds : ∀ d ∈ ds, 48 ≤ d.toNat ∧ d.toNat ≤ 57)
    (hb : decimal_value ds ≤ 65535) :
    (parse_para (mkst ds)).1 = 0 ∧
    (parse_para (mkst ds)).2.1 = decimal_value ds := by
  obtain ⟨d, tl, rfl⟩ : ∃ d tl, ds = d :: tl := by
    cases ds with
    | nil => exact absurd rfl hne
    | cons d tl => exact ⟨d, tl, rfl⟩
  have hd : 48 ≤ d.toNat ∧ d.toNat ≤ 57 := hds d (by simp)
  have hpos : (mkst (d :: tl)).pos = 0 := rfl
  have hlen : (mkst (d :: tl)).len = tl.length + 1 := by
    simp [mkst]
  have hsrc : (mkst (d :: tl)).src = d :: tl := rfl
  have hpk : peek (mkst (d :: tl)) = (d.toNat : Int) := by
    rw [peek_of_lt _ (by omega), hsrc, hpos]
    rfl
  have hpp := parse_para_digit_first (mkst (d :: tl))
    (by rw [hpk]; unfold isdigitI; omega)
  have hgo := paraDigitsGo_foldl (d :: tl) [] (mkst (d :: tl)) 0
    ((mkst (d :: tl)).len + 1 - (mkst (d :: tl)).pos)
    (by rw [hsrc]; rfl) (by rw [hpos]; rfl) (by rw [hlen, hsrc]; rfl)
    hds (by rw [hlen, hpos]; simp only [List.length_cons]; omega)
  have hexact := foldl_para_step_exact (d :: tl) 0 hb
  rw [hpp]
  exact ⟨rfl, by rw [hgo]; exact hexact⟩

/-- Witness for C2 amended: the run 123 parses to exactly 123. -/
theorem c2_para_exact_up_to_65535_witness :
    (parse_para (mkst ('1' :: ['2', '3']))).2.1 = 123 := by
  have h := c2_para_exact_up_to_65535 ('1' :: ['2', '3'])
    (by decide) (by decide) (by decide)
  exact h.2
/-- The state `c'` differs from `c` at most in the cursor fields pos
and col. -/
def CursorExt (c c' : MMLC) : Prop :=
  ∃ p l, c' = { c with pos := p, col := l }

lemma CursorExt.crefl (c : MMLC) : CursorExt c c :=
  ⟨c.pos, c.col, rfl⟩

lemma CursorExt.ctrans {c c' c'' : MMLC} (h1 : CursorExt c c')
    (h2 : CursorExt c' c'') : CursorExt c c'' := by
  obtain ⟨p1, l1, rfl⟩ := h1
  obtain ⟨p2, l2, rfl⟩ := h2
  exact ⟨p2, l2, rfl⟩

/-- get only advances the cursor fields. -/
lemma get_shape (c : MMLC) : CursorExt c (get c).2 := by
  simp only [get]
  split_ifs
  · exact ⟨c.pos, c.col, rfl⟩
  · exact ⟨c.pos + 1, c.col, rfl⟩
  · exact ⟨c.pos + 1, c.col + 1, rfl⟩

/-- skipSpaceGo only advances the cursor fields. -/
lemma skipSpaceGo_shape :
    ∀ (fuel : Nat) (c : MMLC), CursorExt c (skipSpaceGo fuel c)
  | 0, c => CursorExt.crefl c
  | fuel + 1, c => by
    rw [skipSpaceGo]
    by_cases hsp : peek c = 32 ∨ peek c = 9 ∨ peek c = 13
    · simp only [hsp, if_true]
      exact (get_shape c).ctrans (skipSpaceGo_shape fuel (get c).2)
    · simp only [hsp, if_false]
      exact CursorExt.crefl c

/-- skip_space only advances the cursor fields. -/
lemma skip_space_shape (c : MMLC) : CursorExt c (skip_space c) :=
  skipSpaceGo_shape _ c

/-- The parse_para digit loop only advances the cursor fields. -/
lemma paraDigitsGo_shape :
    ∀ (fuel : Nat) (c : MMLC) (v : Nat),
      CursorExt c (paraDigitsGo fuel c v).2
  | 0, c, v => CursorExt.crefl c
  | fuel + 1, c, v => by
    rw [paraDigitsGo]
    by_cases hd : isdigitI (peek c)
    · simp only [hd, not_true_eq_false, if_false]
      exact (get_shape c).ctrans (paraDigitsGo_shape fuel (get c).2 _)
    · simp only [hd, not_false_eq_true, if_true]
      exact CursorExt.crefl c

/-- The percent stage only advances the cursor fields. -/
lemma paraPercent_shape (c : MMLC) : CursorExt c (paraPercent c).2 := by
  unfold paraPercent
  split_ifs
  · exact (get_shape c).ctrans (skip_space_shape _)
  · exact CursorExt.crefl c

/-- The sign stage only advances the cursor fields. -/
lemma paraSign_shape (flag : Nat) (c : MMLC) :
    CursorExt c (paraSign flag c).2 := by
  unfold paraSign
  split_ifs
  · exact (get_shape c).ctrans (skip_space_shape _)
  · exact (get_shape c).ctrans (skip_space_shape _)
  · exact CursorExt.crefl c

/-- parse_para only advances the cursor fields. -/
lemma parse_para_shape (c : MMLC) : CursorExt c (parse_para c).2.2 := by
  simp only [parse_para]
  rcases hp : paraPercent (skip_space c) with ⟨f1, c2⟩
  have s2 : CursorExt c c2 := by
    have hh := paraPercent_shape (skip_space c)
    rw [hp] at hh
    exact (skip_space_shape c).ctrans hh
  simp only
  rcases hs : paraSign f1 c2 with ⟨f2, c3⟩
  have s3 : CursorExt c c3 := by
    have hh := paraSign_shape f1 c2
    rw [hs] at hh
    exact s2.ctrans hh
  simp only
  by_cases hdg : isdigitI (peek c3)
  · simp only [hdg, not_true_eq_false, if_false]
    rcases hg : paraDigitsGo (c3.len + 1 - c3.pos) c3 0 with ⟨v, st⟩
    have hh := paraDigitsGo_shape (c3.len + 1 - c3.pos) c3 0
    rw [hg] at hh
    exact s3.ctrans hh
  · simp only [hdg, not_false_eq_true, if_true]
    exact s3

/-- dotsGo only advances the cursor fields. -/
lemma dotsGo_shape :
    ∀ (fuel : Nat) (c : MMLC) (n : Nat), CursorExt c (dotsGo fuel c n).2
  | 0, c, n => CursorExt.crefl c
  | fuel + 1, c, n => by
    rw [dotsGo]
    by_cases hdot : peek (skip_space c) = 46
    · simp only [hdot, if_true]
      exact ((skip_space_shape c).ctrans (get_shape _)).ctrans
        (dotsGo_shape fuel _ _)
    · simp only [hdot, if_false]
      exact skip_space_shape c

/-- The state `c'` differs from `c` at most in the cursor and error
fields, and any new error kind is FUNC_RANGE. -/
def ParseExt (c c' : MMLC) : Prop :=
  (∃ p l e ec,
    c' = { c with pos := p, col := l, error := e, error_col := ec }) ∧
  (c'.error = c.error ∨ c'.error = .MML_ERR_FUNC_RANGE)

lemma ParseExt.prefl (c : MMLC) : ParseExt c c :=
  ⟨⟨c.pos, c.col, c.error, c.error_col, rfl⟩, Or.inl rfl⟩

lemma ParseExt.ptrans {c c' c'' : MMLC} (h1 : ParseExt c c')
    (h2 : ParseExt c' c'') : ParseExt c c'' := by
  obtain ⟨⟨p1, l1, e1, ec1, rfl⟩, he1⟩ := h1
  obtain ⟨⟨p2, l2, e2, ec2, rfl⟩, he2⟩ := h2
  refine ⟨⟨p2, l2, e2, ec2, rfl⟩, ?_⟩
  have he1' : e1 = c.error ∨ e1 = .MML_ERR_FUNC_RANGE := he1
  have he2' : e2 = e1 ∨ e2 = .MML_ERR_FUNC_RANGE := he2
  show e2 = c.error ∨ e2 = .MML_ERR_FUNC_RANGE
  rcases he2' with h | h
  · rw [h]; exact he1'
  · exact Or.inr h

lemma CursorExt.toParseExt {c c' : MMLC} (h : CursorExt c c') :
    ParseExt c c' := by
  obtain ⟨p, l, rfl⟩ := h
  exact ⟨⟨p, l, c.error, c.error_col, rfl⟩, Or.inl rfl⟩

/-- Setting only error_col stays within ParseExt. -/
lemma ParseExt.errcol (c : MMLC) (ec : Int) :
    ParseExt c { c with error_col := ec } :=
  ⟨⟨c.pos, c.col, c.error, ec, rfl⟩, Or.inl rfl⟩

/-- set_error with FUNC_RANGE stays within ParseExt. -/
lemma set_error_fr_shape (c : MMLC) :
    ParseExt c (set_error c .MML_ERR_FUNC_RANGE) := by
  simp only [set_error]
  split_ifs with h1 h2
  · exact ⟨⟨c.pos, c.col, .MML_ERR_FUNC_RANGE, c.col, rfl⟩, Or.inr rfl⟩
  · exact ⟨⟨c.pos, c.col, .MML_ERR_FUNC_RANGE, c.error_col, rfl⟩, Or.inr rfl⟩
  · exact ParseExt.prefl c

/-- The apply_dots loop only touches error_col. -/
lemma applyDotsGo_shape :
    ∀ (dots : Nat) (c : MMLC) (len96 half : Int),
      ∃ ec, (applyDotsGo dots c len96 half).2.2
              = { c with error_col := ec }
  | 0, c, len96, half => ⟨c.error_col, rfl⟩
  | dots + 1, c, len96, half => by
    rw [applyDotsGo]
    split_ifs with h
    · exact ⟨c.error_col, rfl⟩
    · obtain ⟨ec, hec⟩ := applyDotsGo_shape dots
        { c with error_col := c.error_col + 1 } (len96 + half / 2) (half / 2)
      rw [hec]
      exact ⟨ec, rfl⟩

/-- apply_dots only touches error_col. -/
lemma apply_dots_shape (c : MMLC) (b : Int) (dots : Nat) :
    ∃ ec, (apply_dots c b dots).2.2 = { c with error_col := ec } := by
  obtain ⟨ec, hec⟩ := applyDotsGo_shape dots c b b
  unfold apply_dots
  split
  · rename_i len st heq
    rw [heq] at hec
    exact ⟨ec, hec⟩
  · rename_i len st heq
    rw [heq] at hec
    split_ifs <;> exact ⟨ec, hec⟩

/-- apply_dots stays within ParseExt (it only touches error_col). -/
lemma apply_dots_pe (c : MMLC) (b : Int) (dots : Nat) :
    ParseExt c (apply_dots c b dots).2.2 := by
  obtain ⟨ec, hec⟩ := apply_dots_shape c b dots
  rw [hec]
  exact ParseExt.errcol c ec

/-- parseLen96Dots stays within ParseExt. -/
lemma parseLen96Dots_shape (c : MMLC) (b : Int) :
    ParseExt c (parseLen96Dots c b).2.2 := by
  have h0 : ParseExt c { c with error_col := c.col } :=
    ParseExt.errcol c c.col
  have h1 : ParseExt c
      (dotsGo ({ c with error_col := c.col }.len + 1 -
        { c with error_col := c.col }.pos) { c with error_col := c.col } 0).2 :=
    h0.ptrans (dotsGo_shape _ _ _).toParseExt
  simp only [parseLen96Dots]
  split_ifs with hd
  · split
    · rename_i fst c2 heq2
      have hc2 : c2 = (apply_dots _ _ _).2.2 :=
        (congrArg (fun t => t.2.2) heq2).symm
      have h3 : ParseExt c c2 := by
        rw [hc2]
        exact (h1.ptrans (ParseExt.errcol _ _)).ptrans (apply_dots_pe _ _ _)
      exact h3.ptrans (set_error_fr_shape c2)
    · rename_i base c2 heq2
      have hc2 : c2 = (apply_dots _ _ _).2.2 :=
        (congrArg (fun t => t.2.2) heq2).symm
      have h3 : ParseExt c c2 := by
        rw [hc2]
        exact (h1.ptrans (ParseExt.errcol _ _)).ptrans (apply_dots_pe _ _ _)
      exact h3
  · exact h1
/-- parseLen96Tail stays within ParseExt when its inputs do. -/
lemma parseLen96Tail_shape (c : MMLC) (r : Bool × Int × MMLC) (flag : Nat)
    (k : Int → MMLC → Bool × Int × Nat × MMLC)
    (hr : ParseExt c r.2.2)
    (hk : ∀ b c', ParseExt c' (k b c').2.2.2) :
    ParseExt c (parseLen96Tail r flag k).2.2.2 := by
  rcases r with ⟨ok, base, cr⟩
  cases ok
  · exact hr
  · simp only [parseLen96Tail]
    have h4 : ParseExt c
        (k base { cr with error_col := NOERROR }).2.2.2 :=
      (ParseExt.ptrans hr (ParseExt.errcol cr NOERROR)).ptrans (hk base _)
    split_ifs <;> exact h4

/-- The length resolver stays within ParseExt: it moves the cursor,
may record an error (always FUNC_RANGE), and touches nothing else. -/
lemma parseLen96Aux_shape :
    ∀ (fuel : Nat) (mode : Option Int) (c : MMLC),
      ParseExt c (parseLen96Aux fuel mode c).2.2.2
  | 0, _, c => ParseExt.prefl c
  | fuel + 1, none, c => by
    rw [parseLen96Aux]
    split
    rename_i flag value c1 heq
    have hc1 : c1 = (parse_para c).2.2 :=
      (congrArg (fun t => t.2.2) heq).symm
    have h1 : ParseExt c { c1 with error_col := c1.col } := by
      rw [hc1]
      exact (parse_para_shape c).toParseExt.ptrans (ParseExt.errcol _ _)
    split_ifs <;>
      first
      | exact h1.ptrans (set_error_fr_shape _)
      | exact parseLen96Tail_shape c _ flag _
          (h1.ptrans (parseLen96Dots_shape _ _))
          (fun b c' => parseLen96Aux_shape fuel (some b) c')
  | fuel + 1, some base, c => by
    rw [parseLen96Aux]
    by_cases h94 : peek (skip_space c) ≠ 94
    · rw [if_pos h94]
      exact (skip_space_shape c).toParseExt
    · rw [if_neg h94]
      have hg : ParseExt c (get (skip_space c)).2 :=
        ((skip_space_shape c).ctrans (get_shape _)).toParseExt
      simp only
      split
      · rename_i fst fl c2 heq
        have hc2 : c2 = (parseLen96Aux fuel none _).2.2.2 :=
          (congrArg (fun t => t.2.2.2) heq).symm
        rw [hc2]
        exact hg.ptrans (parseLen96Aux_shape fuel none _)
      · rename_i add fl c2 heq
        have hc2 : c2 = (parseLen96Aux fuel none _).2.2.2 :=
          (congrArg (fun t => t.2.2.2) heq).symm
        have h2 : ParseExt c c2 := by
          rw [hc2]
          exact hg.ptrans (parseLen96Aux_shape fuel none _)
        exact h2.ptrans (parseLen96Aux_shape fuel (some (base + add)) c2)

/-- parse_length_96 stays within ParseExt. -/
lemma parse_length_96_shape (c : MMLC) :
    ParseExt c (parse_length_96 c).2.2.2 :=
  parseLen96Aux_shape _ none c
/-- A successful apply_dots lands in [1, 32767]: this is the only place
the length range check of the resolver lives. -/
lemma apply_dots_range (c : MMLC) (b : Int) (dots : Nat) (l : Int)
    (c' : MMLC) (h : apply_dots c b dots = (true, l, c')) :
    1 ≤ l ∧ l ≤ 32767 := by
  unfold apply_dots at h
  split at h
  · simp at h
  · split_ifs at h with hr
    · simp at h
    · rename_i len96 st heq
      obtain ⟨rfl, rfl⟩ : len96 = l ∧ st = c' := by
        simpa using h
      omega

/-- A successful dot stage keeps the length at least 1 when the base
was. -/
lemma parseLen96Dots_pos (c : MMLC) (b0 : Int) (h0 : 1 ≤ b0)
    (h : (parseLen96Dots c b0).1 = true) :
    1 ≤ (parseLen96Dots c b0).2.1 := by
  simp only [parseLen96Dots] at h ⊢
  split_ifs at h ⊢ with hd
  · split at h
    · simp at h
    · rename_i base c2 heq
      exact (apply_dots_range _ _ _ _ _ heq).1
  · exact h0

/-- parseLen96Tail keeps a success at least 1 when both the dot stage
and the caret continuation do. -/
lemma parseLen96Tail_pos (r : Bool × Int × MMLC) (flag : Nat)
    (k : Int → MMLC → Bool × Int × Nat × MMLC)
    (hr : r.1 = true → 1 ≤ r.2.1)
    (hk : ∀ b, 1 ≤ b →
      (k b { r.2.2 with error_col := NOERROR }).1 = true →
      1 ≤ (k b { r.2.2 with error_col := NOERROR }).2.1) :
    (parseLen96Tail r flag k).1 = true →
    1 ≤ (parseLen96Tail r flag k).2.1 := by
  rcases r with ⟨ok, base, cr⟩
  cases ok
  · intro h
    simp [parseLen96Tail] at h
  · simp only [parseLen96Tail]
    split_ifs with hok
    · intro _
      exact hk base (hr rfl) hok
    · intro h
      simp at h

/-- Every successful run of the length resolver returns at least 1
tick, as long as the default length is at least 1 (and, in caret mode,
the accumulator is). -/
lemma parseLen96Aux_pos :
    ∀ (fuel : Nat) (mode : Option Int) (c : MMLC),
      1 ≤ c.l_len96 →
      (∀ b, mode = some b → 1 ≤ b) →
      (parseLen96Aux fuel mode c).1 = true →
      1 ≤ (parseLen96Aux fuel mode c).2.1
  | 0, mode, c => by
    intro _ _ h
    simp [parseLen96Aux] at h
  | fuel + 1, none, c => by
    intro hl _
    rw [parseLen96Aux]
    split
    rename_i flag value c1 heq
    have hc1 : c1 = (parse_para c).2.2 :=
      (congrArg (fun t => t.2.2) heq).symm
    have hl1 : c1.l_len96 = c.l_len96 := by
      rw [hc1]
      obtain ⟨p, l, hpe⟩ := parse_para_shape c
      rw [hpe]
    have htail : ∀ (b0 : Int), 1 ≤ b0 →
        (parseLen96Tail (parseLen96Dots { c1 with error_col := c1.col } b0)
            flag (fun b c' => parseLen96Aux fuel (some b) c')).1 = true →
        1 ≤ (parseLen96Tail
            (parseLen96Dots { c1 with error_col := c1.col } b0)
            flag (fun b c' => parseLen96Aux fuel (some b) c')).2.1 := by
      intro b0 hb0
      refine parseLen96Tail_pos _ flag _
        (fun hok => parseLen96Dots_pos _ b0 hb0 hok) ?_
      intro b hb
      have hshape := parseLen96Dots_shape { c1 with error_col := c1.col } b0
      obtain ⟨⟨p, l, e, ec, hpe⟩, _⟩ := hshape
      refine parseLen96Aux_pos fuel (some b) _ ?_ ?_
      · rw [hpe]
        show 1 ≤ c1.l_len96
        omega
      · intro b' hb'
        cases hb'
        exact hb
    split_ifs with h1 h2 h3 h4 h5
    · intro h; simp at h
    · intro h; simp at h
    · refine htail (Int.ofNat value) ?_
      rw [Int.ofNat_eq_natCast]
      omega
    · exact htail c1.l_len96 (by omega)
    · refine htail (Int.ofNat (96 / value)) ?_
      rw [Int.ofNat_eq_natCast]
      rcases h5 with h | h | h | h | h | h | h | h | h | h | h | h <;>
        subst h <;> decide
    · intro h; simp at h
  | fuel + 1, some base, c => by
    intro hl hmode
    have hbase : 1 ≤ base := hmode base rfl
    rw [parseLen96Aux]
    by_cases h94 : peek (skip_space c) ≠ 94
    · rw [if_pos h94]
      intro _
      exact hbase
    · rw [if_neg h94]
      simp only
      have hg : CursorExt c (get (skip_space c)).2 :=
        (skip_space_shape c).ctrans (get_shape _)
      have hlg : (get (skip_space c)).2.l_len96 = c.l_len96 := by
        obtain ⟨p, l, hpe⟩ := hg
        rw [hpe]
      split
      · rename_i fst fl c2 heq
        intro h
        simp at h
      · rename_i add fl c2 heq
        have hok : (parseLen96Aux fuel none (get (skip_space c)).2).1
            = true := by rw [heq]
        have haddv : (parseLen96Aux fuel none (get (skip_space c)).2).2.1
            = add := by rw [heq]
        have hadd : 1 ≤ add := by
          rw [← haddv]
          exact parseLen96Aux_pos fuel none _ (by omega)
            (by intro b hb; cases hb) hok
        have hc2 : c2 = (parseLen96Aux fuel none _).2.2.2 :=
          (congrArg (fun t => t.2.2.2) heq).symm
        have hl2 : c2.l_len96 = c.l_len96 := by
          rw [hc2]
          obtain ⟨⟨p, l, e, ec, hpe⟩, _⟩ :=
            parseLen96Aux_shape fuel none (get (skip_space c)).2
          rw [hpe]
          exact hlg
        exact parseLen96Aux_pos fuel (some (base + add)) c2 (by omega)
          (by intro b hb; cases hb; omega)

/-- C3 amended: the [1, 32767] range check of the length resolver is
enforced only by apply_dots, i.e. for the dotted base of each component;
every accepted specification still totals at least 1 tick (given the
invariant l_len96 ≥ 1), but '^' concatenation sums components without
re-checking the upper bound, so accepted totals can exceed 32767 as the
counterexample shows. -/
theorem c3_range_check_only_at_dots :
    (∀ (c : MMLC) (b : Int) (dots : Nat) (l : Int) (c' : MMLC),
       apply_dots c b dots = (true, l, c') → 1 ≤ l ∧ l ≤ 32767) ∧
    (∀ c : MMLC, 1 ≤ c.l_len96 → (parse_length_96 c).1 = true →
       1 ≤ (parse_length_96 c).2.1) := by
  refine ⟨apply_dots_range, fun c hl hok => ?_⟩
  exact parseLen96Aux_pos _ none c hl (by intro b hb; cases hb) hok

/-- Witness for C3 amended: a one-dot application within range, and the
specification `4` resolving to 24 ≥ 1 ticks. -/
theorem c3_range_check_only_at_dots_witness :
    (1 ≤ (36 : Int) ∧ (36 : Int) ≤ 32767) ∧
    1 ≤ (parse_length_96 (mkst ('4' :: []))).2.1 := by
  constructor
  · exact c3_range_check_only_at_dots.1 ch1k 24 1 36
      (apply_dots ch1k 24 1).2.2 (by decide)
  · exact c3_range_check_only_at_dots.2 (mkst ('4' :: []))
      (by decide) (by decide)
/-- Overwrite only the key_shift field (kept abstract so that the
frame lemmas below rewrite cleanly). -/
def setks (c : MMLC) (k : Int) : MMLC := { c with key_shift := k }

lemma setks_pos (c : MMLC) (k : Int) : (setks c k).pos = c.pos := rfl
lemma setks_len (c : MMLC) (k : Int) : (setks c k).len = c.len := rfl
lemma setks_col (c : MMLC) (k : Int) : (setks c k).col = c.col := rfl
lemma setks_src (c : MMLC) (k : Int) : (setks c k).src = c.src := rfl
lemma setks_out (c : MMLC) (k : Int) : (setks c k).out = c.out := rfl
lemma setks_out_cap (c : MMLC) (k : Int) :
    (setks c k).out_cap = c.out_cap := rfl
lemma setks_l_len96 (c : MMLC) (k : Int) :
    (setks c k).l_len96 = c.l_len96 := rfl
lemma setks_lp_len96 (c : MMLC) (k : Int) :
    (setks c k).lp_len96 = c.lp_len96 := rfl
lemma setks_octave (c : MMLC) (k : Int) :
    (setks c k).octave = c.octave := rfl
lemma setks_octave_last (c : MMLC) (k : Int) :
    (setks c k).octave_last = c.octave_last := rfl
lemma setks_error (c : MMLC) (k : Int) : (setks c k).error = c.error := rfl
lemma setks_error_col (c : MMLC) (k : Int) :
    (setks c k).error_col = c.error_col := rfl
lemma setks_key_shift (c : MMLC) (k : Int) : (setks c k).key_shift = k := rfl

/-- peek ignores key_shift. -/
lemma peek_ks (c : MMLC) (k : Int) : peek (setks c k) = peek c := rfl

/-- get ignores key_shift. -/
lemma get_ks (c : MMLC) (k : Int) :
    get (setks c k) = ((get c).1, setks (get c).2 k) := by
  simp only [get, setks_pos, setks_len, setks_src]
  split_ifs <;> rfl

/-- skipSpaceGo ignores key_shift. -/
lemma skipSpaceGo_ks :
    ∀ (fuel : Nat) (c : MMLC) (k : Int),
      skipSpaceGo fuel (setks c k) = setks (skipSpaceGo fuel c) k
  | 0, c, k => rfl
  | fuel + 1, c, k => by
    rw [skipSpaceGo, skipSpaceGo, peek_ks]
    split_ifs
    · rw [get_ks]
      exact skipSpaceGo_ks fuel (get c).2 k
    · rfl

/-- skip_space ignores key_shift. -/
lemma skip_space_ks (c : MMLC) (k : Int) :
    skip_space (setks c k) = setks (skip_space c) k := by
  unfold skip_space
  rw [setks_len, setks_pos]
  exact skipSpaceGo_ks _ c k

set_option maxHeartbeats 1600000 in
/-- The parse_para digit loop ignores key_shift. -/
lemma paraDigitsGo_ks :
    ∀ (fuel : Nat) (c : MMLC) (v : Nat) (k : Int),
      paraDigitsGo fuel (setks c k) v
        = ((paraDigitsGo fuel c v).1, setks (paraDigitsGo fuel c v).2 k)
  | 0, c, v, k => rfl
  | fuel + 1, c, v, k => by
    rw [paraDigitsGo, paraDigitsGo, peek_ks]
    split_ifs
    · rw [get_ks]
      exact paraDigitsGo_ks fuel (get c).2 _ k
    · rfl

/-- The percent stage ignores key_shift. -/
lemma paraPercent_ks (c : MMLC) (k : Int) :
    paraPercent (setks c k)
      = ((paraPercent c).1, setks (paraPercent c).2 k) := by
  simp only [paraPercent, peek_ks]
  split_ifs <;> simp only [get_ks, skip_space_ks]

/-- The sign stage ignores key_shift. -/
lemma paraSign_ks (flag : Nat) (c : MMLC) (k : Int) :
    paraSign flag (setks c k)
      = ((paraSign flag c).1, setks (paraSign flag c).2 k) := by
  simp only [paraSign, peek_ks]
  split_ifs <;> simp only [get_ks, skip_space_ks]

/-- parse_para ignores key_shift. -/
lemma parse_para_ks (c : MMLC) (k : Int) :
    parse_para (setks c k)
      = ((parse_para c).1, (parse_para c).2.1,
         setks (parse_para c).2.2 k) := by
  simp only [parse_para, skip_space_ks, paraPercent_ks]
  rcases hp : paraPercent (skip_space c) with ⟨f1, c2⟩
  simp only [paraSign_ks]
  rcases hs : paraSign f1 c2 with ⟨f2, c3⟩
  simp only [peek_ks, setks_len, setks_pos, paraDigitsGo_ks]
  split_ifs <;> rfl
lemma setks_upd_errcol (c : MMLC) (k x : Int) :
    { setks c k with error_col := x } = setks { c with error_col := x } k :=
  rfl

lemma setks_upd_error (c : MMLC) (k : Int) (e : MML_Error) :
    { setks c k with error := e } = setks { c with error := e } k := rfl

lemma setks_upd_out (c : MMLC) (k : Int) (o : List Nat) :
    { setks c k with out := o } = setks { c with out := o } k := rfl

lemma setks_upd_octave_last (c : MMLC) (k x : Int) :
    { setks c k with octave_last := x }
      = setks { c with octave_last := x } k := rfl

/-- dotsGo ignores key_shift. -/
lemma dotsGo_ks :
    ∀ (fuel : Nat) (c : MMLC) (n : Nat) (k : Int),
      dotsGo fuel (setks c k) n
        = ((dotsGo fuel c n).1, setks (dotsGo fuel c n).2 k)
  | 0, c, n, k => rfl
  | fuel + 1, c, n, k => by
    rw [dotsGo, dotsGo, skip_space_ks, peek_ks]
    split_ifs
    · rw [get_ks]
      exact dotsGo_ks fuel (get (skip_space c)).2 (n + 1) k
    · rfl

/-- The apply_dots loop ignores key_shift. -/
lemma applyDotsGo_ks :
    ∀ (dots : Nat) (c : MMLC) (len96 half k : Int),
      applyDotsGo dots (setks c k) len96 half
        = ((applyDotsGo dots c len96 half).1,
           (applyDotsGo dots c len96 half).2.1,
           setks (applyDotsGo dots c len96 half).2.2 k)
  | 0, c, len96, half, k => rfl
  | dots + 1, c, len96, half, k => by
    rw [applyDotsGo, applyDotsGo]
    split_ifs
    · rfl
    · simp only [setks_error_col, setks_upd_errcol]
      exact applyDotsGo_ks dots { c with error_col := c.error_col + 1 }
        (len96 + half / 2) (half / 2) k

/-- apply_dots ignores key_shift. -/
lemma apply_dots_ks (c : MMLC) (b : Int) (dots : Nat) (k : Int) :
    apply_dots (setks c k) b dots
      = ((apply_dots c b dots).1, (apply_dots c b dots).2.1,
         setks (apply_dots c b dots).2.2 k) := by
  unfold apply_dots
  rw [applyDotsGo_ks]
  rcases hgo : applyDotsGo dots c b b with ⟨ok, len, st⟩
  cases ok
  · rfl
  · simp only
    split_ifs <;> rfl

/-- set_error ignores key_shift. -/
lemma set_error_ks (c : MMLC) (e : MML_Error) (k : Int) :
    set_error (setks c k) e = setks (set_error c e) k := by
  simp only [set_error, setks_error, setks_error_col, setks_col]
  split_ifs <;> rfl

/-- ensure_space ignores key_shift. -/
lemma ensure_space_ks (c : MMLC) (n : Nat) (k : Int) :
    ensure_space (setks c k) n
      = ((ensure_space c n).1, setks (ensure_space c n).2 k) := by
  simp only [ensure_space]
  simp only [setks_upd_errcol]
  simp only [setks_out, setks_out_cap, setks_col]
  split_ifs
  · rw [set_error_ks]
  · rfl

/-- emit_byte ignores key_shift. -/
lemma emit_byte_ks (c : MMLC) (v : Nat) (k : Int) :
    emit_byte (setks c k) v = setks (emit_byte c v) k := by
  unfold emit_byte
  rw [ensure_space_ks]
  rcases h : ensure_space c 1 with ⟨ok, st⟩
  cases ok <;> rfl

/-- emit_word_le ignores key_shift. -/
lemma emit_word_le_ks (c : MMLC) (v : Nat) (k : Int) :
    emit_word_le (setks c k) v = setks (emit_word_le c v) k := by
  unfold emit_word_le
  rw [ensure_space_ks]
  rcases h : ensure_space c 2 with ⟨ok, st⟩
  cases ok <;> rfl

/-- emit_octave ignores key_shift. -/
lemma emit_octave_ks (c : MMLC) (n k : Int) :
    emit_octave (setks c k) n = setks (emit_octave c n) k := by
  simp only [emit_octave]
  split_ifs
  · rw [set_error_ks]
  · rw [emit_byte_ks]
    rfl

/-- make_note_header ignores key_shift. -/
lemma make_note_header_ks (c : MMLC) (tone len96 : Int) (tie : Bool)
    (k : Int) :
    make_note_header (setks c k) tone len96 tie
      = make_note_header c tone len96 tie := by
  simp only [make_note_header, setks_l_len96, setks_lp_len96]
/-- parseLen96Dots ignores key_shift. -/
lemma parseLen96Dots_ks (c : MMLC) (b k : Int) :
    parseLen96Dots (setks c k) b
      = ((parseLen96Dots c b).1, (parseLen96Dots c b).2.1,
         setks (parseLen96Dots c b).2.2 k) := by
  simp only [parseLen96Dots]
  simp only [setks_upd_errcol]
  simp only [setks_len, setks_pos, setks_col]
  rw [dotsGo_ks]
  rcases hgo : dotsGo (c.len + 1 - c.pos) { c with error_col := c.col } 0
    with ⟨dots, c1⟩
  simp only
  split_ifs with hd
  · simp only [setks_upd_errcol]
    simp only [setks_error_col]
    rw [apply_dots_ks]
    rcases had : apply_dots { c1 with error_col := c1.error_col + 1 } b dots
      with ⟨ok, len, c2⟩
    cases ok
    · simp only
      rw [set_error_ks]
    · rfl
  · rfl

/-- parseLen96Tail ignores key_shift when its continuation does. -/
lemma parseLen96Tail_ks (r : Bool × Int × MMLC) (flag : Nat)
    (kk : Int → MMLC → Bool × Int × Nat × MMLC) (k : Int)
    (hkk : ∀ b c', kk b (setks c' k)
      = ((kk b c').1, (kk b c').2.1, (kk b c').2.2.1,
         setks (kk b c').2.2.2 k)) :
    parseLen96Tail (r.1, r.2.1, setks r.2.2 k) flag kk
      = ((parseLen96Tail r flag kk).1, (parseLen96Tail r flag kk).2.1,
         (parseLen96Tail r flag kk).2.2.1,
         setks (parseLen96Tail r flag kk).2.2.2 k) := by
  rcases r with ⟨ok, base, cr⟩
  cases ok
  · rfl
  · simp only [parseLen96Tail]
    rw [setks_upd_errcol, hkk]
    rcases hk2 : kk base { cr with error_col := NOERROR }
      with ⟨ok2, total, fl, c4⟩
    cases ok2 <;> rfl

/-- The length resolver ignores key_shift. -/
lemma parseLen96Aux_ks :
    ∀ (fuel : Nat) (mode : Option Int) (c : MMLC) (k : Int),
      parseLen96Aux fuel mode (setks c k)
        = ((parseLen96Aux fuel mode c).1, (parseLen96Aux fuel mode c).2.1,
           (parseLen96Aux fuel mode c).2.2.1,
           setks (parseLen96Aux fuel mode c).2.2.2 k)
  | 0, _, c, k => rfl
  | fuel + 1, none, c, k => by
    rw [parseLen96Aux, parseLen96Aux, parse_para_ks]
    rcases hpp : parse_para c with ⟨flag, value, c1⟩
    simp only
    simp only [setks_upd_errcol]
    simp only [setks_col, setks_l_len96]
    split_ifs
    · rw [set_error_ks]
    · rw [set_error_ks]
    · rw [parseLen96Dots_ks]
      exact parseLen96Tail_ks _ flag _ k
        (fun b c' => parseLen96Aux_ks fuel (some b) c' k)
    · rw [parseLen96Dots_ks]
      exact parseLen96Tail_ks _ flag _ k
        (fun b c' => parseLen96Aux_ks fuel (some b) c' k)
    · rw [parseLen96Dots_ks]
      exact parseLen96Tail_ks _ flag _ k
        (fun b c' => parseLen96Aux_ks fuel (some b) c' k)
    · rw [set_error_ks]
  | fuel + 1, some base, c, k => by
    rw [parseLen96Aux, parseLen96Aux, skip_space_ks, peek_ks]
    split_ifs
    · rfl
    · rw [get_ks]
      simp only
      rw [parseLen96Aux_ks fuel none _ k]
      rcases hin : parseLen96Aux fuel none (get (skip_space c)).2
        with ⟨ok, add, fl, c2⟩
      cases ok
      · rfl
      · simp only
        exact parseLen96Aux_ks fuel (some (base + add)) c2 k

/-- parse_length_96 ignores key_shift. -/
lemma parse_length_96_ks (c : MMLC) (k : Int) :
    parse_length_96 (setks c k)
      = ((parse_length_96 c).1, (parse_length_96 c).2.1,
         (parse_length_96 c).2.2.1,
         setks (parse_length_96 c).2.2.2 k) := by
  unfold parse_length_96
  rw [setks_len, setks_pos]
  exact parseLen96Aux_ks _ none c k

/-- The note-emission tail ignores key_shift. -/
lemma emit_note_ks (c : MMLC) (octave tone len96 : Int) (tie : Bool)
    (k : Int) :
    emit_note (setks c k) octave tone len96 tie
      = setks (emit_note c octave tone len96 tie) k := by
  simp only [emit_note, setks_octave_last]
  by_cases hoc : c.octave_last ≠ octave
  · rw [if_pos hoc, if_pos hoc, emit_octave_ks, make_note_header_ks,
      emit_byte_ks]
    simp only [setks_l_len96, setks_lp_len96]
    split_ifs
    · rw [emit_byte_ks]
    · rw [emit_word_le_ks]
    · rfl
  · rw [if_neg hoc, if_neg hoc, make_note_header_ks, emit_byte_ks]
    simp only [setks_l_len96, setks_lp_len96]
    split_ifs
    · rw [emit_byte_ks]
    · rw [emit_word_le_ks]
    · rfl
/-- The length-and-tie tail of compile_note ignores key_shift. -/
lemma compile_note_len_ks (c : MMLC) (tone octave k : Int) :
    compile_note_len (setks c k) tone octave
      = setks (compile_note_len c tone octave) k := by
  simp only [compile_note_len]
  rw [setks_upd_errcol, parse_length_96_ks]
  rcases hp : parse_length_96 { c with error_col := NOERROR }
    with ⟨ok, len96, flag, c1⟩
  cases ok
  · rfl
  · simp only
    by_cases hP : flag &&& PARA_F_PLUS ≠ 0
    · rw [if_pos hP, if_pos hP, set_error_ks]
    · rw [if_neg hP, if_neg hP]
      by_cases hM : flag &&& PARA_F_MINUS ≠ 0
      · rw [if_pos hM, if_pos hM, set_error_ks]
      · rw [if_neg hM, if_neg hM, skip_space_ks, peek_ks]
        by_cases ht : peek (skip_space c1) = 38
        · rw [if_pos ht, if_pos ht]
          simp only [get_ks]
          exact emit_note_ks _ octave tone len96 true k
        · rw [if_neg ht, if_neg ht]
          exact emit_note_ks _ octave tone len96 false k

/-- C10 frame lemma: compiling a rest ('R', code 82) gives a result
that is completely independent of key_shift; the field itself is merely
carried through. -/
lemma compile_note_R_ks (c : MMLC) (k : Int) :
    compile_note (setks c k) 82 = setks (compile_note c 82) k := by
  have ht : toupperI 82 = 82 := by decide
  simp only [compile_note, ht, if_pos]
  rw [setks_upd_errcol]
  simp only [setks_col, setks_octave]
  exact compile_note_len_ks { c with error_col := c.col } 0 c.octave k
lemma CursorExt.error {c c' : MMLC} (h : CursorExt c c') :
    c'.error = c.error := by
  obtain ⟨p, l, rfl⟩ := h
  rfl

/-- set_error records at most the given kind. -/
lemma set_error_error (c : MMLC) (e : MML_Error) :
    (set_error c e).error = c.error ∨ (set_error c e).error = e := by
  simp only [set_error]
  split_ifs <;> simp

/-- ensure_space records at most INTERNAL. -/
lemma ensure_space_error (c : MMLC) (n : Nat) :
    (ensure_space c n).2.error = c.error ∨
    (ensure_space c n).2.error = .MML_ERR_INTERNAL := by
  simp only [ensure_space]
  split_ifs
  · exact set_error_error { c with error_col := c.col } _
  · exact Or.inl rfl

/-- emit_byte records at most INTERNAL. -/
lemma emit_byte_error (c : MMLC) (v : Nat) :
    (emit_byte c v).error = c.error ∨
    (emit_byte c v).error = .MML_ERR_INTERNAL := by
  unfold emit_byte
  have h := ensure_space_error c 1
  split
  · rename_i st heq
    rw [heq] at h
    exact h
  · rename_i st heq
    rw [heq] at h
    exact h

/-- emit_word_le records at most INTERNAL. -/
lemma emit_word_le_error (c : MMLC) (v : Nat) :
    (emit_word_le c v).error = c.error ∨
    (emit_word_le c v).error = .MML_ERR_INTERNAL := by
  unfold emit_word_le
  have h := ensure_space_error c 2
  split
  · rename_i st heq
    rw [heq] at h
    exact h
  · rename_i st heq
    rw [heq] at h
    exact h

/-- emit_octave records at most OCTAVE or INTERNAL. -/
lemma emit_octave_error (c : MMLC) (n : Int) :
    (emit_octave c n).error = c.error ∨
    (emit_octave c n).error = .MML_ERR_OCTAVE ∨
    (emit_octave c n).error = .MML_ERR_INTERNAL := by
  simp only [emit_octave]
  split_ifs
  · rcases set_error_error c .MML_ERR_OCTAVE with h | h
    · exact Or.inl h
    · exact Or.inr (Or.inl h)
  · rcases emit_byte_error c (u8 (128 + n)) with h | h
    · exact Or.inl h
    · exact Or.inr (Or.inr h)

/-- The note-emission tail records at most OCTAVE or INTERNAL. -/
lemma emit_note_error (c : MMLC) (octave tone len96 : Int) (tie : Bool) :
    (emit_note c octave tone len96 tie).error = c.error ∨
    (emit_note c octave tone len96 tie).error = .MML_ERR_OCTAVE ∨
    (emit_note c octave tone len96 tie).error = .MML_ERR_INTERNAL := by
  simp only [emit_note]
  by_cases hoc : c.octave_last ≠ octave
  · rw [if_pos hoc]
    have h1 := emit_octave_error c octave
    have h2 := emit_byte_error (emit_octave c octave)
      (make_note_header (emit_octave c octave) tone len96 tie)
    set c2 := emit_byte (emit_octave c octave)
      (make_note_header (emit_octave c octave) tone len96 tie) with hc2
    split_ifs
    · rcases emit_byte_error c2 (u8 len96) with h | h <;> rcases h2 with h' | h' <;>
        rcases h1 with h'' | h'' | h'' <;> simp_all
    · rcases emit_word_le_error c2 (u16 len96) with h | h <;> rcases h2 with h' | h' <;>
        rcases h1 with h'' | h'' | h'' <;> simp_all
    · rcases h2 with h' | h' <;> rcases h1 with h'' | h'' | h'' <;> simp_all
  · rw [if_neg hoc]
    have h2 := emit_byte_error c (make_note_header c tone len96 tie)
    set c2 := emit_byte c (make_note_header c tone len96 tie) with hc2
    split_ifs
    · rcases emit_byte_error c2 (u8 len96) with h | h <;>
        rcases h2 with h' | h' <;> simp_all
    · rcases emit_word_le_error c2 (u16 len96) with h | h <;>
        rcases h2 with h' | h' <;> simp_all
    · rcases h2 with h' | h' <;> simp_all
/-- The length-and-tie tail of compile_note records at most FUNC_RANGE,
OCTAVE, or INTERNAL. -/
lemma compile_note_len_error (c : MMLC) (tone octave : Int) :
    (compile_note_len c tone octave).error = c.error ∨
    (compile_note_len c tone octave).error = .MML_ERR_FUNC_RANGE ∨
    (compile_note_len c tone octave).error = .MML_ERR_OCTAVE ∨
    (compile_note_len c tone octave).error = .MML_ERR_INTERNAL := by
  simp only [compile_note_len]
  have hps := parse_length_96_shape { c with error_col := NOERROR }
  split
  · rename_i fst fl c1 heq
    rw [heq] at hps
    rcases hps.2 with h | h
    · exact Or.inl h
    · exact Or.inr (Or.inl h)
  · rename_i len96 flag c1 heq
    rw [heq] at hps
    have hc1e : c1.error = c.error ∨ c1.error = .MML_ERR_FUNC_RANGE :=
      hps.2
    by_cases hP : flag &&& PARA_F_PLUS ≠ 0
    · rw [if_pos hP]
      rcases set_error_error c1 .MML_ERR_FUNC_RANGE with h | h <;>
        rcases hc1e with h' | h' <;> simp_all
    · rw [if_neg hP]
      by_cases hM : flag &&& PARA_F_MINUS ≠ 0
      · rw [if_pos hM]
        rcases set_error_error c1 .MML_ERR_FUNC_RANGE with h | h <;>
          rcases hc1e with h' | h' <;> simp_all
      · rw [if_neg hM]
        by_cases ht : peek (skip_space c1) = 38
        · rw [if_pos ht]
          simp only
          have hsg : ((get (skip_space c1)).2).error = c1.error := by
            rw [((skip_space_shape c1).ctrans (get_shape _)).error]
          rcases emit_note_error (get (skip_space c1)).2 octave tone len96
              true with h | h | h <;> rw [hsg] at * <;>
            rcases hc1e with h' | h' <;> simp_all
        · rw [if_neg ht]
          simp only
          have hsg : (skip_space c1).error = c1.error :=
            (skip_space_shape c1).error
          rcases emit_note_error (skip_space c1) octave tone len96 false
              with h | h | h <;> rw [hsg] at * <;>
            rcases hc1e with h' | h' <;> simp_all

/-- Compiling a rest never records NOTE_OVERFLOW. -/
lemma compile_note_R_error (c : MMLC) (h : c.error = .MML_OK) :
    (compile_note c 82).error ≠ .MML_ERR_NOTE_OVERFLOW := by
  have ht : toupperI 82 = 82 := by decide
  simp only [compile_note, ht, if_pos]
  have he : ({ c with error_col := c.col } : MMLC).error = .MML_OK := h
  rcases compile_note_len_error { c with error_col := c.col } 0 c.octave
    with hh | hh | hh | hh <;> rw [hh] <;> simp_all
/-- skip_space at end of line. -/
lemma skip_space_eol (c : MMLC) (h : c.len ≤ c.pos) :
    skip_space c = c :=
  skip_space_of_not_space c (by rw [peek_of_ge c h]; decide)

/-- parse_para at end of line: NOVALUE, value 0, state untouched. -/
lemma parse_para_eol (c : MMLC) (h : c.len ≤ c.pos) :
    parse_para c = (PARA_F_NOVALUE, 0, c) := by
  have hpk : peek c = -1 := peek_of_ge c h
  have hss : skip_space c = c := skip_space_eol c h
  have hpc : paraPercent c = (0, c) := by
    unfold paraPercent
    rw [hpk, if_neg (by decide)]
  have hsg : paraSign 0 c = (0, c) := by
    unfold paraSign
    rw [hpk, if_neg (by decide), if_neg (by decide)]
  simp only [parse_para, hss, hpc, hsg, hpk]
  rw [if_pos (by decide)]
  rfl

/-- The dot stage at end of line: no dots, base length unchanged. -/
lemma parseLen96Dots_eol (c : MMLC) (b : Int) (h : c.len ≤ c.pos) :
    parseLen96Dots c b = (true, b, { c with error_col := c.col }) := by
  have hss : skip_space ({ c with error_col := c.col } : MMLC)
      = { c with error_col := c.col } := skip_space_eol _ h
  have hdg : dotsGo (({ c with error_col := c.col } : MMLC).len + 1 -
        ({ c with error_col := c.col } : MMLC).pos)
      { c with error_col := c.col } 0
      = (0, { c with error_col := c.col }) := by
    cases hfv : ({ c with error_col := c.col } : MMLC).len + 1 -
        ({ c with error_col := c.col } : MMLC).pos with
    | zero => rfl
    | succ n =>
      rw [dotsGo, hss, peek_of_ge { c with error_col := c.col } h]
      rw [if_neg (by decide)]
  simp only [parseLen96Dots, hdg]
  rw [if_neg (by omega)]

/-- The caret loop at end of line: it ends at once. -/
lemma parseLen96Aux_carets_eol (fuel : Nat) (hf : 1 ≤ fuel) (b : Int)
    (c : MMLC) (h : c.len ≤ c.pos) :
    parseLen96Aux fuel (some b) c = (true, b, 0, c) := by
  obtain ⟨f, rfl⟩ : ∃ f, fuel = f + 1 := ⟨fuel - 1, by omega⟩
  rw [parseLen96Aux, skip_space_eol c h, peek_of_ge c h]
  rw [if_pos (by decide)]

/-- The length resolver at end of line: NOVALUE, so the L default is
returned, with only error_col reset. -/
lemma parseLen96Aux_eol (fuel : Nat) (hf : 2 ≤ fuel) (c : MMLC)
    (h : c.len ≤ c.pos) :
    parseLen96Aux fuel none c
      = (true, c.l_len96, PARA_F_NOVALUE,
         { c with error_col := NOERROR }) := by
  obtain ⟨f, rfl⟩ : ∃ f, fuel = (f + 1) + 1 := ⟨fuel - 2, by omega⟩
  rw [parseLen96Aux, parse_para_eol c h]
  simp only
  rw [if_neg (by decide), if_pos (by decide)]
  rw [parseLen96Dots_eol { c with error_col := c.col } c.l_len96 h]
  simp only [parseLen96Tail]
  rw [parseLen96Aux_carets_eol (f + 1) (by omega) c.l_len96
    { c with error_col := NOERROR } h]
  rfl

/-- parse_length_96 at end of line. -/
lemma parse_length_96_eol (c : MMLC) (h : c.len ≤ c.pos) :
    parse_length_96 c
      = (true, c.l_len96, PARA_F_NOVALUE,
         { c with error_col := NOERROR }) := by
  unfold parse_length_96
  exact parseLen96Aux_eol _ (by omega) c h
/-- Compiling a bare rest (nothing after the R) emits the lazy octave
byte when needed followed by the default-length rest header. -/
lemma compile_note_R_eol (c : MMLC) (hp : c.len ≤ c.pos)
    (he : c.error = .MML_OK) (h1 : 1 ≤ c.octave) (h8 : c.octave ≤ 8)
    (hcap : c.out.length + 4 ≤ c.out_cap)
    (hl1 : 1 ≤ c.l_len96) (hl2 : c.l_len96 ≤ 65535) :
    (compile_note c 82).out =
      c.out ++
      (if c.octave_last = c.octave then [] else [(128 + c.octave).toNat]) ++
      [make_note_header c 0 c.l_len96 false] := by
  have ht : toupperI 82 = 82 := by decide
  simp only [compile_note, ht, if_pos]
  simp only [compile_note_len]
  rw [parse_length_96_eol { c with error_col := NOERROR } hp]
  simp only
  rw [if_neg (by decide), if_neg (by decide)]
  rw [skip_space_eol { c with error_col := NOERROR } hp,
    peek_of_ge { c with error_col := NOERROR } hp]
  rw [if_neg (by decide)]
  obtain ⟨ho, _⟩ := emit_note_out { c with error_col := NOERROR }
    c.octave 0 c.l_len96 false he h1 h8 hcap hl1 hl2
  rw [ho]
  rw [make_note_header_only_lengths { c with error_col := NOERROR } c
    0 c.l_len96 false rfl rfl]
  rw [if_pos (Or.inl rfl)]
  simp

/-- C10: compiling a rest statement never applies key_shift.  The
result is the key_shift := 0 run with the field merely carried along,
a rest can never raise NOTE_OVERFLOW, and for a bare `R` the emitted
header byte has tone nibble 0 while the lazy octave-byte comparison
uses the unshifted logical octave. -/
theorem c10_rest_ignores_key_shift (c : MMLC) (k : Int)
    (hk1 : -12 ≤ k) (hk2 : k ≤ 12) (he : c.error = .MML_OK) :
    compile_note (setks c k) 82
      = setks (compile_note (setks c 0) 82) k ∧
    (compile_note (setks c k) 82).error ≠ .MML_ERR_NOTE_OVERFLOW ∧
    (c.len ≤ c.pos → 1 ≤ c.octave → c.octave ≤ 8 →
      c.out.length + 4 ≤ c.out_cap → 1 ≤ c.l_len96 → c.l_len96 ≤ 65535 →
      (compile_note (setks c k) 82).out
        = c.out ++ (if c.octave_last = c.octave then []
                    else [(128 + c.octave).toNat])
              ++ [make_note_header c 0 c.l_len96 false] ∧
      make_note_header c 0 c.l_len96 false % 16 = 0) := by
  refine ⟨?_, ?_, ?_⟩
  · rw [compile_note_R_ks c k, compile_note_R_ks c 0]
    rfl
  · rw [compile_note_R_ks c k, setks_error]
    exact compile_note_R_error c he
  · intro hp h1 h8 hcap hl1 hl2
    constructor
    · rw [compile_note_R_ks c k, setks_out]
      exact compile_note_R_eol c hp he h1 h8 hcap hl1 hl2
    · exact (make_note_header_fields c 0 c.l_len96 false
        (by omega) (by omega)).1

/-- Witness for C10: a rest on a fresh channel with key_shift 5 does
not raise NOTE_OVERFLOW. -/
theorem c10_rest_ignores_key_shift_witness :
    (compile_note (setks ch1k 5) 82).error ≠ .MML_ERR_NOTE_OVERFLOW :=
  (c10_rest_ignores_key_shift ch1k 5 (by decide) (by decide) rfl).2.1

end P6MML
